import Mathlib

/-!
# Verification of the image curation and adaptive scoring subsystem

Shallow embedding of the core of the `timed_reference` repository:

* `src/services/image_scorer.py` — feedback scoring and weighted selection
  (`ImageScorer.get_score`, `record_positive_feedback`,
  `record_negative_feedback`, `select_images`);
* `src/agent/tools/curator_tool.py` — theme expansion and the curation
  orchestrator (`_expand_theme`, `curate_reference_photos`);
* `src/agent/subagents/query_generator.py` — `generate_smart_queries`;
* `src/services/memory_store.py` — the persistent cache
  (`save_theme_results`, `get_cached_theme`, `get_cached_images_for_theme`)
  and the SQLite schema;
* `src/services/session_store.py` — `add_session_image`, `complete_session`.

Modelling conventions:

* Python floats used for scores are modelled as rationals `ℚ`; the claims
  settled here only depend on order relative to the clamp constants, which
  `min`/`max` establish exactly in either arithmetic.
* SQLite tables are modelled as Lean lists of row structures; JSON
  round-tripping of a list of strings (`json.dumps`/`json.loads` on the
  `theme_queries.queries` column) is the identity and is elided.
* `CURRENT_TIMESTAMP` is modelled as an explicit `now : ℕ` parameter.
* Randomness (`random.uniform`, `random.randint`) is modelled by an explicit
  stream of draws; theorems quantify over all streams.
* A Python dict field that may be absent or `None` is modelled as
  `Option (Option ℤ)`: `none` = key absent, `some none` = key present with
  value `None`, `some (some v)` = key present with integer `v`.
-/

namespace TimedReference

/-! ## Scoring constants (image_scorer.py lines 16-19, 100) -/

def NEGATIVE_FEEDBACK_DECAY : ℚ := 8/10

def POSITIVE_FEEDBACK_BOOST : ℚ := 12/10

def FRESHNESS_BONUS : ℚ := 1/10

def MIN_SCORE : ℚ := 1/10

/-- `max_score = 2.0` in `record_positive_feedback`. -/
def MAX_SCORE : ℚ := 2

/-- `theme.lower().strip()`, applied by every scorer and store operation:
lowercase each character, then drop leading and trailing whitespace
(spelled out on the char list so that it evaluates inside the kernel). -/
def normTheme (theme : String) : String :=
  String.mk ((((theme.toList.map Char.toLower).dropWhile
    Char.isWhitespace).reverse.dropWhile Char.isWhitespace).reverse)

/-! ## The image_theme_scores table

One row per `(pexels_id, theme)` composite key (schema in
`memory_store.init_schema`).  The table is modelled as a function from the
key to the optional row. -/

structure ScoreRow where
  score : ℚ
  timesShown : ℕ
  deriving Repr, DecidableEq

abbrev ScoreTable := ℤ × String → Option ScoreRow

/-- `ImageScorer.get_score`: stored score, defaulting to 1.0. -/
def get_score (st : ScoreTable) (pexelsId : ℤ) (theme : String) : ℚ :=
  match st (pexelsId, normTheme theme) with
  | some r => r.score
  | none => 1

/-- `ImageScorer.record_negative_feedback`: multiply by the decay, floored at
`MIN_SCORE`; insert a row seeded at `NEGATIVE_FEEDBACK_DECAY` when absent. -/
def record_negative_feedback (st : ScoreTable) (pexelsId : ℤ) (theme : String) :
    ScoreTable :=
  let key := (pexelsId, normTheme theme)
  fun k =>
    if k = key then
      match st key with
      | some r =>
          some { score := max MIN_SCORE (r.score * NEGATIVE_FEEDBACK_DECAY),
                 timesShown := r.timesShown + 1 }
      | none => some { score := NEGATIVE_FEEDBACK_DECAY, timesShown := 1 }
    else st k

/-- `ImageScorer.record_positive_feedback`: multiply by the boost, capped at
`max_score = 2.0`; insert a row seeded at `POSITIVE_FEEDBACK_BOOST` when
absent. -/
def record_positive_feedback (st : ScoreTable) (pexelsId : ℤ) (theme : String) :
    ScoreTable :=
  let key := (pexelsId, normTheme theme)
  fun k =>
    if k = key then
      match st key with
      | some r =>
          some { score := min MAX_SCORE (r.score * POSITIVE_FEEDBACK_BOOST),
                 timesShown := r.timesShown + 1 }
      | none => some { score := POSITIVE_FEEDBACK_BOOST, timesShown := 1 }
    else st k

/-- One feedback call on a fixed `(pexels_id, theme)` pair. -/
inductive FeedbackCall where
  | pos
  | neg
  deriving Repr, DecidableEq

def applyFeedback (pexelsId : ℤ) (theme : String) (st : ScoreTable) :
    FeedbackCall → ScoreTable
  | .pos => record_positive_feedback st pexelsId theme
  | .neg => record_negative_feedback st pexelsId theme

/-- A finite sequence of feedback calls on the pair, applied in order. -/
def runFeedback (pexelsId : ℤ) (theme : String) (calls : List FeedbackCall)
    (st : ScoreTable) : ScoreTable :=
  calls.foldl (applyFeedback pexelsId theme) st

/-- The data-model invariant at one `(pexels_id, theme)` key: either no row is
stored, or the stored score lies in `[MIN_SCORE, MAX_SCORE]`. -/
def ScorePairInv (st : ScoreTable) (pexelsId : ℤ) (theme : String) : Prop :=
  match st (pexelsId, normTheme theme) with
  | some r => MIN_SCORE ≤ r.score ∧ r.score ≤ MAX_SCORE
  | none => True

/-! ## Image dict payloads

`select_images` receives loosely-keyed dicts.  The fields it reads are
`pexels_id` and `id` (via `img.get('pexels_id', img.get('id'))`) and
`times_used` (via `img.get('times_used', 0)`).  The remaining descriptive
fields are carried so that curation and cache rows can share the type. -/

structure Img where
  pexelsId : Option (Option ℤ) := none
  idField : Option (Option ℤ) := none
  url : String := ""
  thumbnail : String := ""
  alt : String := ""
  photographer : String := ""
  timesUsed : ℕ := 0
  score : ℚ := 1
  deriving Repr, DecidableEq, Inhabited

/-- `img.get('pexels_id', img.get('id'))`: the value at `pexels_id` when the
key is present (possibly `None`), else the value at `id` when present, else
`None`. -/
def imgKey (img : Img) : Option ℤ :=
  match img.pexelsId with
  | some v => v
  | none =>
      match img.idField with
      | some v => v
      | none => none

/-- `img.get('pexels_id', img.get('id')) not in exclude_ids` is false exactly
here; `None` is never a member of a set of integer ids. -/
def inExclude (excludeIds : Finset ℤ) (img : Img) : Bool :=
  match imgKey img with
  | some v => v ∈ excludeIds
  | none => false

/-- The stats the SQL lookup in `select_images` yields for one candidate:
the stored `image_theme_scores` row for `(id, theme)` when the id is an
integer and a row exists, else the `{"score": 1.0, "times_shown": 0}`
default. -/
def imgStats (st : ScoreTable) (theme : String) (img : Img) : ScoreRow :=
  match imgKey img with
  | some v => (st (v, normTheme theme)).getD ⟨1, 0⟩
  | none => ⟨1, 0⟩

/-- Weight computation in `select_images`: stored score, plus
`FRESHNESS_BONUS` when `times_shown == 0`, plus `FRESHNESS_BONUS` when the
candidate's own `times_used` counter is 0, floored at `MIN_SCORE`. -/
def imgWeight (st : ScoreTable) (theme : String) (img : Img) : ℚ :=
  let stats := imgStats st theme img
  let w := stats.score
  let w := if stats.timesShown = 0 then w + FRESHNESS_BONUS else w
  let w := if img.timesUsed = 0 then w + FRESHNESS_BONUS else w
  max MIN_SCORE w

/-! ## Weighted random selection without replacement -/

/-- A source of random draws: `uniform n` models the value returned by the
`n`-th `random.uniform(0, total_weight)` call, `randint n` feeds the
`n`-th `random.randint(0, len - 1)` fallback (taken modulo the pool size,
since the library call returns an in-range index). -/
structure RandSrc where
  uniform : ℕ → ℚ
  randint : ℕ → ℕ

/-- The index scan in `select_images`: `idx = 0`, then walk the cumulative
weights and stop at the first `i` with `r ≤ cumulative`; when no prefix sum
reaches `r` the initial `idx = 0` stands. -/
def chooseIdxAux : List ℚ → ℚ → ℚ → ℕ → Option ℕ
  | [], _, _, _ => none
  | w :: ws, r, cum, i =>
      if r ≤ cum + w then some i else chooseIdxAux ws r (cum + w) (i + 1)

def chooseIdx (ws : List ℚ) (r : ℚ) : ℕ :=
  (chooseIdxAux ws r 0 0).getD 0

/-- The selection loop of `select_images`: `select_count` iterations, each
removing the chosen candidate and its weight from the remaining pool.
Fuel is `select_count`; `n` counts random draws. -/
def selectLoop (st : ScoreTable) (g : RandSrc) :
    ℕ → ℕ → List Img → List ℚ → List Img
  | 0, _, _, _ => []
  | fuel + 1, n, cands, ws =>
      if cands.isEmpty then []
      else
        let total := ws.sum
        let idx :=
          if total ≤ 0 then g.randint n % cands.length
          else chooseIdx ws (g.uniform n)
        let sel := cands.getD idx default
        sel :: selectLoop st g fuel (n + 1) (cands.eraseIdx idx) (ws.eraseIdx idx)

/-- `ImageScorer.select_images` (image_scorer.py lines 165-264). -/
def select_images (st : ScoreTable) (g : RandSrc) (available : List Img)
    (theme : String) (count : ℕ) (excludeIds : Finset ℤ) : List Img :=
  if available.isEmpty then []
  else
    let candidates := available.filter (fun img => !inExclude excludeIds img)
    if candidates.isEmpty then []
    else
      let weights := candidates.map (imgWeight st theme)
      let selectCount := min count candidates.length
      selectLoop st g selectCount 0 candidates weights

/-- Shared zero-valued random source for concrete evaluations: every
`random.uniform(0, total)` draw returns 0 (a value the library can return),
every `random.randint(0, len-1)` returns 0. -/
def zeroRand : RandSrc := ⟨fun _ => 0, fun _ => 0⟩

/-- Two distinct candidate dicts carrying the same `pexels_id`. -/
def dupImgA : Img := { pexelsId := some (some 1), url := "a" }

def dupImgB : Img := { pexelsId := some (some 1), url := "b" }

/-! ## Heap model of the list mutations in `select_images` (for C10)

Python lists are mutable heap cells.  `select_images` builds `candidates`
(a fresh comprehension), `weights` (a fresh list), `remaining_candidates =
list(candidates)` and `remaining_weights = list(weights)` (copies), and
`selected = []`; it then mutates only those fresh cells (`append`/`pop`).
The heap holds integer-addressed cells of image lists and of weight lists;
allocation appends a cell, so fresh cells never alias caller cells. -/

structure ListHeap where
  imgCells : List (List Img)
  ratCells : List (List ℚ)

def readImgCell (h : ListHeap) (r : ℕ) : List Img := h.imgCells.getD r []

def writeImgCell (h : ListHeap) (r : ℕ) (v : List Img) : ListHeap :=
  { h with imgCells := h.imgCells.set r v }

def allocImgCell (h : ListHeap) (v : List Img) : ListHeap × ℕ :=
  ({ h with imgCells := h.imgCells ++ [v] }, h.imgCells.length)

def readRatCell (h : ListHeap) (r : ℕ) : List ℚ := h.ratCells.getD r []

def writeRatCell (h : ListHeap) (r : ℕ) (v : List ℚ) : ListHeap :=
  { h with ratCells := h.ratCells.set r v }

def allocRatCell (h : ListHeap) (v : List ℚ) : ListHeap × ℕ :=
  ({ h with ratCells := h.ratCells ++ [v] }, h.ratCells.length)

/-- The selection loop acting on the heap: each iteration reads the two
remaining pools, appends `remaining_candidates[idx]` to the `selected` cell
and pops index `idx` from both pool cells. -/
def selectLoopHeap (st : ScoreTable) (g : RandSrc) :
    ℕ → ℕ → ListHeap → ℕ → ℕ → ℕ → ListHeap
  | 0, _, h, _, _, _ => h
  | fuel + 1, n, h, remCRef, remWRef, selRef =>
      let cands := readImgCell h remCRef
      if cands.isEmpty then h
      else
        let ws := readRatCell h remWRef
        let total := ws.sum
        let idx :=
          if total ≤ 0 then g.randint n % cands.length
          else chooseIdx ws (g.uniform n)
        let sel := cands.getD idx default
        let h1 := writeImgCell h selRef (readImgCell h selRef ++ [sel])
        let h2 := writeImgCell h1 remCRef (cands.eraseIdx idx)
        let h3 := writeRatCell h2 remWRef (ws.eraseIdx idx)
        selectLoopHeap st g fuel (n + 1) h3 remCRef remWRef selRef

/-- `select_images` over the heap: the caller's `available` list lives in
cell `availRef`; every list created by the function is freshly allocated. -/
def select_images_heap (st : ScoreTable) (g : RandSrc) (h0 : ListHeap)
    (availRef : ℕ) (theme : String) (count : ℕ) (excludeIds : Finset ℤ) :
    ListHeap × List Img :=
  let available := readImgCell h0 availRef
  if available.isEmpty then (h0, [])
  else
    let alloc1 := allocImgCell h0 (available.filter (fun img => !inExclude excludeIds img))
    let h1 := alloc1.1
    let candRef := alloc1.2
    let candidates := readImgCell h1 candRef
    if candidates.isEmpty then (h1, [])
    else
      let alloc2 := allocRatCell h1 (candidates.map (imgWeight st theme))
      let h2 := alloc2.1
      let wRef := alloc2.2
      let alloc3 := allocImgCell h2 (readImgCell h2 candRef)
      let h3 := alloc3.1
      let remCRef := alloc3.2
      let alloc4 := allocRatCell h3 (readRatCell h3 wRef)
      let h4 := alloc4.1
      let remWRef := alloc4.2
      let alloc5 := allocImgCell h4 []
      let h5 := alloc5.1
      let selRef := alloc5.2
      let selectCount := min count candidates.length
      let h6 := selectLoopHeap st g selectCount 0 h5 remCRef remWRef selRef
      (h6, readImgCell h6 selRef)

/-! ## Query expansion (curator_tool.py `_expand_theme`,
query_generator.py `generate_smart_queries`)

Python string slicing `s[:n]` operates on code points, i.e. on the char
list; `str(q)` is the identity on strings (the parsed JSON value is
modelled as either a list of strings or a non-list, see `GenOracle`). -/

/-- `s[:n]` on a Python string. -/
def strTake (s : String) (n : ℕ) : String := String.mk (s.toList.take n)

def strStarts : List Char → List Char → Bool
  | [], _ => true
  | _ :: _, [] => false
  | a :: xs, b :: ys => a == b && strStarts xs ys

def strHasSub (needle : List Char) : List Char → Bool
  | [] => strStarts needle []
  | c :: t => strStarts needle (c :: t) || strHasSub needle t

/-- Python `needle in hay` on strings. -/
def strContains (hay needle : String) : Bool := strHasSub needle.toList hay.toList

/-- `THEME_EXPANSIONS` (curator_tool.py lines 24-55), in insertion order —
Python dict iteration preserves it. -/
def THEME_EXPANSIONS : List (String × List String) := [
  ("animals", ["cat", "dog", "horse", "bird"]),
  ("animal", ["cat", "dog", "horse", "bird"]),
  ("pets", ["cat", "dog", "rabbit", "hamster"]),
  ("wildlife", ["lion", "elephant", "deer", "wolf"]),
  ("hands", ["hand", "fist", "fingers", "grip"]),
  ("hand", ["hand", "fist", "fingers", "grip"]),
  ("hand studies", ["hand", "fist", "pointing", "grip"]),
  ("feet", ["foot", "barefoot", "toes", "walking"]),
  ("faces", ["portrait", "face", "profile", "smile"]),
  ("portrait", ["portrait", "face", "headshot", "profile"]),
  ("portraits", ["portrait", "face", "headshot", "profile"]),
  ("dynamic poses", ["dancer", "athlete", "runner", "gymnast"]),
  ("dynamic", ["dancer", "athlete", "jump", "action"]),
  ("poses", ["model", "pose", "standing", "sitting"]),
  ("gesture", ["dancer", "yoga", "stretch", "movement"]),
  ("gestures", ["dancer", "yoga", "stretch", "movement"]),
  ("figure", ["model", "pose", "figure", "body"]),
  ("figure drawing", ["model", "pose", "figure", "standing"]),
  ("vehicles", ["car", "motorcycle", "bicycle", "truck"]),
  ("cars", ["car", "sedan", "sports car", "vintage car"]),
  ("architecture", ["building", "house", "bridge", "tower"]),
  ("nature", ["tree", "flower", "mountain", "forest"]),
  ("food", ["fruit", "vegetables", "meal", "cooking"])]

/-- The boundary to the LLM call plus JSON parsing in
`generate_smart_queries`: `.error` = any exception inside the `try` block
(network failure, JSON decode error); `.ok none` = the parse produced a
non-list (the `isinstance(queries, list)` check fails); `.ok (some qs)` =
the parse produced a list, modelled as a list of strings (Python truthiness
`if q` = non-empty, `str(q)` = identity). -/
abbrev GenOracle := Except Unit (Option (List String))

abbrev QueryCache := List (String × List String)

/-- `_query_cache[theme_lower] = queries` on the module-level dict. -/
def cacheInsert (cache : QueryCache) (k : String) (v : List String) : QueryCache :=
  if cache.any (fun p => p.1 == k) then
    cache.map (fun p => if p.1 == k then (k, v) else p)
  else cache ++ [(k, v)]

/-- `generate_smart_queries` (query_generator.py lines 128-186).  Returns
the query list and the updated module cache. -/
def generate_smart_queries (oracle : GenOracle) (cache : QueryCache)
    (theme : String) (useCache : Bool) : List String × QueryCache :=
  let t := normTheme theme
  match (if useCache then cache.find? (fun p => p.1 == t) else none) with
  | some p => (p.2, cache)
  | none =>
      match oracle with
      | .error _ => ([theme], cache)
      | .ok none => ([theme], cache)
      | .ok (some qs) =>
          if 2 ≤ qs.length then
            let processed :=
              ((qs.filter (fun q => q ≠ "")).map (fun q => strTake q 50)).take 6
            (processed, cacheInsert cache t processed)
          else ([theme], cache)

/-- `_expand_theme` (curator_tool.py lines 58-90): exact preset match, then
substring preset match in iteration order, then the LLM fallback accepted
only when `queries and len(queries) >= 2`, else `[theme_lower]`. -/
def expand_theme (oracle : GenOracle) (cache : QueryCache) (theme : String)
    (useLlmFallback : Bool) : List String × QueryCache :=
  let t := normTheme theme
  match THEME_EXPANSIONS.find? (fun p => p.1 == t) with
  | some p => (p.2, cache)
  | none =>
      match THEME_EXPANSIONS.find?
          (fun p => strContains t p.1 || strContains p.1 t) with
      | some p => (p.2, cache)
      | none =>
          if useLlmFallback then
            let gr := generate_smart_queries oracle cache theme true
            if 2 ≤ gr.1.length then gr else ([t], gr.2)
          else ([t], cache)

/-- A 55-character query string. -/
def s55a : String := String.mk (List.replicate 55 'a')

def s55b : String := String.mk (List.replicate 55 'b')

/-- The post-processing of accepted generator output as the specification
words it: non-empty entries, each truncated to a bounded length of **60**
characters. -/
def specTruncate60 (qs : List String) : List String :=
  ((qs.filter (fun q => q ≠ "")).map (fun q => strTake q 60)).take 6

/-! ## Persistent cache store (memory_store.py)

SQLite tables are lists of row records.  The `ON CONFLICT` clauses follow
SQLite semantics: a conflict arises only between non-NULL key values
(`optEq`), conflicting rows are updated in place, otherwise the row is
appended.  `json.dumps`/`json.loads` of a list of strings round-trips, so
the `queries` column holds the list itself.  The unused auxiliary tables
(study_plans, daily_progress) are not modelled. -/

/-- SQL equality used by unique-key conflict detection: NULL never equals
anything, including NULL. -/
def optEq (a b : Option ℤ) : Bool :=
  match a, b with
  | some x, some y => x == y
  | _, _ => false

structure ThemeQueryRow where
  theme : String
  queries : List String
  createdAt : ℕ
  deriving Repr, DecidableEq

structure CuratedRow where
  pexelsId : Option ℤ
  alt : String
  theme : String
  url : String
  thumbnail : String
  photographer : String
  timesUsed : ℕ
  lastUsed : Option ℕ
  deriving Repr, DecidableEq

structure ThemeImageRow where
  theme : String
  pexelsId : Option ℤ
  position : ℤ
  deriving Repr, DecidableEq

structure Store where
  themeQueries : List ThemeQueryRow
  curatedImages : List CuratedRow
  themeImages : List ThemeImageRow
  deriving Repr, DecidableEq

/-- `img["pexels_id"]` as stored: the key's value (callers of
`save_theme_results` always construct the key; a dict without it would
raise `KeyError` and is not exercised by the claims, which hypothesise
integer ids). -/
def imgPid (img : Img) : Option ℤ := img.pexelsId.getD none

/-- The `theme_queries` upsert in `save_theme_results`: replace the queries
and refresh `created_at` on conflict on the `theme` primary key, else
insert. -/
def upsertThemeQueries (tq : List ThemeQueryRow) (t : String) (qs : List String)
    (now : ℕ) : List ThemeQueryRow :=
  if tq.any (fun r => r.theme == t) then
    tq.map (fun r => if r.theme == t then ⟨t, qs, now⟩ else r)
  else tq ++ [⟨t, qs, now⟩]

/-- The `curated_images` upsert: on conflict on `pexels_id` only the
descriptive fields `alt`, `url`, `thumbnail` refresh (`theme`,
`photographer`, `times_used`, `last_used` are preserved); otherwise insert
with `times_used = 0`. -/
def upsertCuratedImage (ci : List CuratedRow) (tLower : String) (img : Img) :
    List CuratedRow :=
  if ci.any (fun r => optEq r.pexelsId (imgPid img)) then
    ci.map (fun r =>
      if optEq r.pexelsId (imgPid img) then
        { r with alt := img.alt, url := img.url, thumbnail := img.thumbnail }
      else r)
  else
    ci ++ [{ pexelsId := imgPid img, alt := img.alt, theme := tLower,
             url := img.url, thumbnail := img.thumbnail,
             photographer := img.photographer, timesUsed := 0,
             lastUsed := none }]

/-- The `theme_images` upsert: on conflict on `(theme, pexels_id)` update
the position, else insert. -/
def upsertThemeImage (ti : List ThemeImageRow) (tLower : String)
    (pid : Option ℤ) (pos : ℤ) : List ThemeImageRow :=
  if ti.any (fun r => r.theme == tLower && optEq r.pexelsId pid) then
    ti.map (fun r =>
      if r.theme == tLower && optEq r.pexelsId pid then { r with position := pos }
      else r)
  else ti ++ [⟨tLower, pid, pos⟩]

/-- One iteration of the `for position, img in enumerate(images)` loop in
`save_theme_results`: upsert the image row, upsert its theme association. -/
def saveStep (t : String) (s : Store) (pi : ℕ × Img) : Store :=
  { s with
    curatedImages := upsertCuratedImage s.curatedImages t pi.2,
    themeImages := upsertThemeImage s.themeImages t (imgPid pi.2) (pi.1 : ℤ) }

/-- `MemoryStore.save_theme_results` (memory_store.py lines 204-257). -/
def save_theme_results (store : Store) (theme : String) (queries : List String)
    (images : List Img) (now : ℕ) : Store :=
  let t := normTheme theme
  let store1 := { store with
    themeQueries := upsertThemeQueries store.themeQueries t queries now }
  images.enum.foldl (saveStep t) store1

/-- `ORDER BY ti.position`; positions are distinct in the states the claims
exercise, so any stable sort determines the row order. -/
def sortByPosition (rows : List ThemeImageRow) : List ThemeImageRow :=
  rows.insertionSort (fun a b => a.position ≤ b.position)

/-- The join in `get_cached_theme`: inner join `curated_images` with
`theme_images` on `pexels_id` (SQL `=` never matches NULL), theme-scoped,
ordered by position; one row per pair (per id, under the schema's UNIQue
pexels_id).  The projected dict has no `times_used` key, so the field takes
its absent-key default. -/
def joinRow (curated : List CuratedRow) (ti : ThemeImageRow) : Option Img :=
  match ti.pexelsId with
  | none => none
  | some v =>
      (curated.find? (fun ci => ci.pexelsId == some v)).map
        (fun ci =>
          { pexelsId := some ci.pexelsId, idField := none, url := ci.url,
            thumbnail := ci.thumbnail, alt := ci.alt,
            photographer := ci.photographer })

def joinThemeImages (store : Store) (t : String) : List Img :=
  (sortByPosition (store.themeImages.filter (fun r => r.theme == t))).filterMap
    (joinRow store.curatedImages)

/-- `MemoryStore.get_cached_theme` (memory_store.py lines 167-202): `None`
unless both the ThemeQueryRecord and at least one joined image row exist. -/
def get_cached_theme (store : Store) (theme : String) :
    Option (List String × List Img) :=
  match store.themeQueries.find? (fun r => r.theme == normTheme theme) with
  | none => none
  | some tq =>
      if (joinThemeImages store (normTheme theme)).isEmpty then none
      else some (tq.queries, joinThemeImages store (normTheme theme))

/-! ## Session store (session_store.py, schema in memory_store.init_schema) -/

structure SessionRow where
  id : ℕ
  theme : String
  durationPerImage : ℤ
  totalImages : ℤ
  imagesCompleted : ℤ
  startedAt : ℕ
  endedAt : Option ℕ
  status : String
  deriving Repr, DecidableEq

/-- A `session_images` row.  The schema (memory_store.py lines 107-116)
declares `id INTEGER PRIMARY KEY AUTOINCREMENT`, a foreign key on
`session_id`, and **no** uniqueness constraint on
`(session_id, pexels_id)`. -/
structure SessionImageRow where
  rowid : ℕ
  sessionId : ℕ
  pexelsId : ℤ
  position : ℤ
  timeSpent : Option ℤ
  skipped : ℤ
  deriving Repr, DecidableEq

structure SessDB where
  sessions : List SessionRow
  sessionImages : List SessionImageRow
  nextSessionId : ℕ
  nextImageRowid : ℕ
  deriving Repr, DecidableEq

/-- `SessionStore.create_session`. -/
def create_session (db : SessDB) (theme : String) (durationPerImage : ℤ)
    (totalImages : ℤ) (now : ℕ) : SessDB × ℕ :=
  ({ db with
      sessions := db.sessions ++
        [⟨db.nextSessionId, theme, durationPerImage, totalImages, 0, now, none,
          "in_progress"⟩],
      nextSessionId := db.nextSessionId + 1 },
    db.nextSessionId)

/-- `SessionStore.add_session_image` (session_store.py lines 57-69):
`INSERT OR IGNORE INTO session_images (session_id, pexels_id, position)`.
`OR IGNORE` suppresses only UNIQUE/NOT NULL/CHECK conflicts; the table has
no UNIQUE constraint over `(session_id, pexels_id)`, so every insert with a
valid session id appends a fresh row.  A foreign-key violation still
raises, `OR IGNORE` notwithstanding. -/
def add_session_image (db : SessDB) (sessionId : ℕ) (pexelsId : ℤ)
    (position : ℤ) : Except Unit SessDB :=
  if db.sessions.any (fun r => r.id == sessionId) then
    .ok { db with
      sessionImages := db.sessionImages ++
        [⟨db.nextImageRowid, sessionId, pexelsId, position, none, 0⟩],
      nextImageRowid := db.nextImageRowid + 1 }
  else .error ()

/-- `SessionStore.complete_session` (session_store.py lines 95-115): an
unconditional `UPDATE practice_sessions SET images_completed = ?,
ended_at = CURRENT_TIMESTAMP, status = ? WHERE id = ?`. -/
def complete_session (db : SessDB) (sessionId : ℕ) (imagesCompleted : ℤ)
    (status : String) (now : ℕ) : SessDB :=
  { db with
    sessions := db.sessions.map (fun r =>
      if r.id == sessionId then
        { r with imagesCompleted := imagesCompleted, endedAt := some now,
                 status := status }
      else r) }

/-- A one-session database used by concrete runs. -/
def sessDB0 : SessDB :=
  { sessions := [⟨1, "hands", 60, 10, 0, 0, none, "in_progress"⟩],
    sessionImages := [], nextSessionId := 2, nextImageRowid := 1 }

/-! ## Curation orchestrator (curator_tool.py `curate_reference_photos`)

External dependencies are oracle fields of `CurateEnv`; an `Except`-valued
field models a call that may raise.  Every dependency call site in the
source is wrapped in `try/except`, which the embedding mirrors with a
`match` falling back exactly as the handler does; the single uncaught
error is the `ZeroDivisionError` at `(needed * 2) // len(queries)` when the
force-fresh query list is empty. -/

structure Photo where
  id : ℤ
  alt : String
  srcLarge : String
  srcMedium : String
  photographer : String
  deriving Repr, DecidableEq

/-- The dict built for a fetched photo (curator_tool.py lines 230-237); the
`id` and `times_used`-independent fields absent from the dict keep the
model's defaults, which match the `dict.get` defaults at every read site. -/
def mkNewImg (p : Photo) : Img :=
  { pexelsId := some (some p.id), idField := none, url := p.srcLarge,
    thumbnail := p.srcMedium, alt := p.alt, photographer := p.photographer,
    timesUsed := 0 }

/-- One row of `get_cached_images_for_theme`'s join: the curated row's
fields plus `times_used` and the LEFT-JOINed score defaulting to 1.0
(`last_used` is selected too but read nowhere in the curation path). -/
def cachedRow (st : ScoreTable) (t : String) (curated : List CuratedRow)
    (ti : ThemeImageRow) : Option Img :=
  match ti.pexelsId with
  | none => none
  | some v =>
      (curated.find? (fun ci => ci.pexelsId == some v)).map
        (fun ci =>
          { pexelsId := some ci.pexelsId, idField := none, url := ci.url,
            thumbnail := ci.thumbnail, alt := ci.alt,
            photographer := ci.photographer, timesUsed := ci.timesUsed,
            score := match st (v, t) with
                     | some r => r.score
                     | none => 1 })

/-- `MemoryStore.get_cached_images_for_theme` (memory_store.py 275-290). -/
def get_cached_images_for_theme (store : Store) (st : ScoreTable)
    (theme : String) : List Img :=
  (sortByPosition (store.themeImages.filter
    (fun r => r.theme == normTheme theme))).filterMap
    (cachedRow st (normTheme theme) store.curatedImages)

/-- `img['pexels_id'] not in recently_used` is false exactly here (cached
rows always carry the key; a `None` value is never a member of a set of
ints). -/
def inRecent (recent : Finset ℤ) (img : Img) : Bool :=
  match img.pexelsId with
  | some (some v) => v ∈ recent
  | _ => false

/-- `img.get("pexels_id") == pexels_id` for the dedup checks in the fetch
loop (no fallback to `id`; a missing key yields `None`, never equal to an
int). -/
def hasPid (img : Img) (pid : ℤ) : Bool :=
  match img.pexelsId with
  | some (some x) => x == pid
  | _ => false

structure CurateEnv where
  /-- `session_store.get_images_shown_recently(days)`; may raise. -/
  recent : Except Unit (Finset ℤ)
  /-- whether `memory_store.get_cached_images_for_theme` raises. -/
  cacheRaises : Bool
  /-- LLM/parse boundary used by `_expand_theme`'s fallback. -/
  genOracle : GenOracle
  /-- the module-level `_query_cache`. -/
  genCache : QueryCache
  /-- LLM/parse boundary of the force-fresh `generate_smart_queries` call. -/
  genOracleFresh : GenOracle
  /-- `pexels_client.search_photos(query, per_page)` per query index. -/
  search : ℕ → String → ℤ → Except Unit (List Photo)
  /-- `_is_good_reference(photo.alt, theme)` per (query, photo) index. -/
  isGood : ℕ → ℕ → String → String → Except Unit Bool
  /-- whether `image_scorer.select_images` raises, per call site
  (0 = cache-sufficient branch, 1 = final selection). -/
  scorerRaises : ℕ → Bool
  /-- random streams for the scorer, per call site. -/
  rand : ℕ → RandSrc
  /-- the image_theme_scores table read by the scorer. -/
  st : ScoreTable
  /-- whether `save_theme_results` raises (swallowed by `_try_save_to_cache`). -/
  saveRaises : Bool
  /-- the save's CURRENT_TIMESTAMP. -/
  now : ℕ

inductive CurateErr where
  | zeroDiv
  deriving Repr, DecidableEq

structure CurateResult where
  /-- the persistent cache after the call. -/
  store : Store
  /-- the module query cache after the call. -/
  genCache : QueryCache
  /-- the returned list, or the uncaught exception. -/
  result : Except CurateErr (List Img)
  /-- the `set_images_for_session` effect (`images[:MAX_IMAGES]`),
  when execution reaches a return. -/
  sessionImages : Option (List Img)
  deriving Repr

/-- `MAX_IMAGES` from session_control_tool.py. -/
def MAX_IMAGES : ℕ := 15

/-- The `for photo in photos` body (curator_tool.py lines 219-237): filter
by the evaluator, skip recently used and duplicate ids, append the new
dict.  An evaluator exception aborts the remaining photos of this query but
keeps what was already appended (the per-query `except` catches it). -/
def photosLoop (env : CurateEnv) (theme : String) (recentlyUsed : Finset ℤ)
    (available : List Img) (qIdx : ℕ) :
    ℕ → List Photo → List Img → List Img
  | _, [], acc => acc
  | pIdx, p :: ps, acc =>
      match env.isGood qIdx pIdx p.alt theme with
      | .error _ => acc
      | .ok false => photosLoop env theme recentlyUsed available qIdx (pIdx + 1) ps acc
      | .ok true =>
          if p.id ∈ recentlyUsed then
            photosLoop env theme recentlyUsed available qIdx (pIdx + 1) ps acc
          else if available.any (fun img => hasPid img p.id) then
            photosLoop env theme recentlyUsed available qIdx (pIdx + 1) ps acc
          else if acc.any (fun img => hasPid img p.id) then
            photosLoop env theme recentlyUsed available qIdx (pIdx + 1) ps acc
          else
            photosLoop env theme recentlyUsed available qIdx (pIdx + 1) ps
              (acc ++ [mkNewImg p])

/-- The `for query in queries` loop (lines 214-241): a failed search skips
that query and continues. -/
def queriesLoop (env : CurateEnv) (theme : String) (recentlyUsed : Finset ℤ)
    (available : List Img) :
    ℕ → List String → ℤ → List Img → List Img
  | _, [], _, acc => acc
  | qIdx, q :: qs, fpq, acc =>
      match env.search qIdx q fpq with
      | .error _ => queriesLoop env theme recentlyUsed available (qIdx + 1) qs fpq acc
      | .ok photos =>
          queriesLoop env theme recentlyUsed available (qIdx + 1) qs fpq
            (photosLoop env theme recentlyUsed available qIdx 0 photos acc)

/-- Lines 193-268: query determination, fetch, merge, final selection,
conditional cache write, session setter.  Entered with the `available`
cached pool and `needed = target_count - len(available)` (an `int` that can
be non-positive). -/
def curateFetch (env : CurateEnv) (store : Store) (theme : String)
    (targetCount : ℕ) (forceFresh : Bool) (recentlyUsed : Finset ℤ)
    (available : List Img) (needed : ℤ) : CurateResult :=
  let gen :=
    if forceFresh then
      -- the surrounding try/except is dead: the embedded call is total
      generate_smart_queries env.genOracleFresh env.genCache theme false
    else
      expand_theme env.genOracle env.genCache theme true
  let queries := gen.1
  let genCache1 := gen.2
  if queries.length = 0 then
    -- ZeroDivisionError at `(needed * 2) // len(queries)` propagates
    ⟨store, genCache1, .error .zeroDiv, none⟩
  else
    let fetchPerQuery : ℤ := max 10 ((needed * 2).fdiv (queries.length : ℤ) + 3)
    let newImages := queriesLoop env theme recentlyUsed available 0 queries
      fetchPerQuery []
    let allImages := available ++ newImages
    let finalImages :=
      if env.scorerRaises 1 then allImages.take targetCount
      else select_images env.st (env.rand 1) allImages theme targetCount
        recentlyUsed
    let store1 :=
      if newImages.isEmpty || forceFresh then store
      else if env.saveRaises then store
      else save_theme_results store theme queries newImages env.now
    ⟨store1, genCache1, .ok finalImages, some (finalImages.take MAX_IMAGES)⟩

/-- `_get_recently_used_ids`: the recency set, or `set()` when the session
store raises. -/
def recentSet (e : Except Unit (Finset ℤ)) : Finset ℤ :=
  match e with
  | .ok s => s
  | .error _ => ∅

/-- `curate_reference_photos` (curator_tool.py lines 128-268). -/
def curate_reference_photos (env : CurateEnv) (store : Store) (theme : String)
    (targetCount : ℕ) (forceFresh : Bool) : CurateResult :=
  let recentlyUsed : Finset ℤ := recentSet env.recent
  -- `_get_cached_images_with_scores` returns None on error and on an
  -- empty row set alike; the whole cache branch is skipped if force_fresh
  let cachedImages : Option (List Img) :=
    if forceFresh then none
    else if env.cacheRaises then none
    else
      let imgs := get_cached_images_for_theme store env.st theme
      if imgs.isEmpty then none else some imgs
  match cachedImages with
  | none =>
      curateFetch env store theme targetCount forceFresh recentlyUsed []
        (targetCount : ℤ)
  | some cimgs =>
      let available := cimgs.filter (fun img => !inRecent recentlyUsed img)
      if targetCount ≤ available.length then
        if env.scorerRaises 0 then
          -- scorer raised: fall back to a positional slice and return
          let result := available.take targetCount
          ⟨store, env.genCache, .ok result, some (result.take MAX_IMAGES)⟩
        else
          let selected := select_images env.st (env.rand 0) available theme
            targetCount recentlyUsed
          if selected.isEmpty then
            -- `if selected:` is falsy: fall through to the fetch step
            curateFetch env store theme targetCount forceFresh recentlyUsed
              available ((targetCount : ℤ) - available.length)
          else ⟨store, env.genCache, .ok selected, some (selected.take MAX_IMAGES)⟩
      else
        curateFetch env store theme targetCount forceFresh recentlyUsed
          available ((targetCount : ℤ) - available.length)

/-- A store holding a stale association for "hands": image 99 at position 1,
with its curated row, but no queries record. -/
def staleStore : Store :=
  { themeQueries := [],
    curatedImages := [⟨some 99, "old", "hands", "u99", "t99", "p", 0, none⟩],
    themeImages := [⟨"hands", some 99, 1⟩] }

/-- A fresh image with id 5. -/
def imgFive : Img := { pexelsId := some (some 5), url := "u5", thumbnail := "t5" }

lemma scorePairInv_record_negative (st : ScoreTable) (pexelsId : ℤ)
    (theme : String) (h : ScorePairInv st pexelsId theme) :
    ScorePairInv (record_negative_feedback st pexelsId theme) pexelsId theme := by
  unfold ScorePairInv record_negative_feedback at *
  simp only [if_pos rfl]
  cases hrow : st (pexelsId, normTheme theme) with
  | none => constructor <;> norm_num [MIN_SCORE, MAX_SCORE, NEGATIVE_FEEDBACK_DECAY]
  | some r =>
      rw [hrow] at h
      refine ⟨le_max_left _ _, ?_⟩
      have hub : r.score * NEGATIVE_FEEDBACK_DECAY ≤ MAX_SCORE := by
        have h2 := h.2
        have hd : (0:ℚ) ≤ NEGATIVE_FEEDBACK_DECAY := by norm_num [NEGATIVE_FEEDBACK_DECAY]
        calc r.score * NEGATIVE_FEEDBACK_DECAY ≤ MAX_SCORE * NEGATIVE_FEEDBACK_DECAY := by
              exact mul_le_mul_of_nonneg_right h2 hd
          _ ≤ MAX_SCORE := by norm_num [MAX_SCORE, NEGATIVE_FEEDBACK_DECAY]
      have hmin : MIN_SCORE ≤ MAX_SCORE := by norm_num [MIN_SCORE, MAX_SCORE]
      exact max_le hmin hub

lemma scorePairInv_record_positive (st : ScoreTable) (pexelsId : ℤ)
    (theme : String) (h : ScorePairInv st pexelsId theme) :
    ScorePairInv (record_positive_feedback st pexelsId theme) pexelsId theme := by
  unfold ScorePairInv record_positive_feedback at *
  simp only [if_pos rfl]
  cases hrow : st (pexelsId, normTheme theme) with
  | none => constructor <;> norm_num [MIN_SCORE, MAX_SCORE, POSITIVE_FEEDBACK_BOOST]
  | some r =>
      rw [hrow] at h
      refine ⟨?_, min_le_left _ _⟩
      have hlb : MIN_SCORE ≤ r.score * POSITIVE_FEEDBACK_BOOST := by
        have h1 := h.1
        calc MIN_SCORE = MIN_SCORE * 1 := by ring
          _ ≤ r.score * POSITIVE_FEEDBACK_BOOST := by
              apply mul_le_mul h1 (by norm_num [POSITIVE_FEEDBACK_BOOST]) (by norm_num)
              have := le_trans (by norm_num [MIN_SCORE] : (0:ℚ) ≤ MIN_SCORE) h1
              exact this
      have hmin : MIN_SCORE ≤ MAX_SCORE := by norm_num [MIN_SCORE, MAX_SCORE]
      exact le_min hmin hlb

lemma scorePairInv_apply (st : ScoreTable) (pexelsId : ℤ) (theme : String)
    (c : FeedbackCall) (h : ScorePairInv st pexelsId theme) :
    ScorePairInv (applyFeedback pexelsId theme st c) pexelsId theme := by
  cases c with
  | pos => exact scorePairInv_record_positive st pexelsId theme h
  | neg => exact scorePairInv_record_negative st pexelsId theme h

lemma scorePairInv_run (pexelsId : ℤ) (theme : String) (calls : List FeedbackCall)
    (st : ScoreTable) (h : ScorePairInv st pexelsId theme) :
    ScorePairInv (runFeedback pexelsId theme calls st) pexelsId theme := by
  induction calls generalizing st with
  | nil => exact h
  | cons c cs ih =>
      exact ih (applyFeedback pexelsId theme st c)
        (scorePairInv_apply st pexelsId theme c h)

/-- **C1.** For every finite sequence of `record_positive_feedback` /
`record_negative_feedback` calls on a `(provider_id, theme)` pair, starting
from any state satisfying the data-model invariant (no stored row, or a
stored score within bounds — the only states the scorer ever produces), the
stored score after the whole sequence (hence, since the sequence is
arbitrary, after each call) satisfies `MIN_SCORE ≤ score ≤ MAX_SCORE`, and
`get_score` returns 1.0 for a pair with no stored row. -/
theorem score_bounds_invariant (st : ScoreTable) (pexelsId : ℤ) (theme : String)
    (h : ScorePairInv st pexelsId theme) (calls : List FeedbackCall) :
    ScorePairInv (runFeedback pexelsId theme calls st) pexelsId theme ∧
      (∀ pid th, st (pid, normTheme th) = none → get_score st pid th = 1) := by
  refine ⟨scorePairInv_run pexelsId theme calls st h, ?_⟩
  intro pid th hnone
  unfold get_score
  rw [hnone]

/-- Witness for C1: from the empty table, a concrete feedback sequence keeps
the score in bounds, and the default score is 1. -/
theorem score_bounds_invariant_witness :
    ScorePairInv
      (runFeedback 7 "hands" [.neg, .neg, .pos, .neg] (fun _ => none)) 7 "hands" ∧
      (∀ pid th, (fun _ => none : ScoreTable) (pid, normTheme th) = none →
        get_score (fun _ => none) pid th = 1) :=
  score_bounds_invariant (fun _ => none) 7 "hands" (by trivial)
    [.neg, .neg, .pos, .neg]

lemma chooseIdxAux_lt_length (ws : List ℚ) (r : ℚ) (j : ℕ) :
    ∀ (cum : ℚ) (i : ℕ), chooseIdxAux ws r cum i = some j → j < i + ws.length := by
  induction ws with
  | nil => intro cum i h; simp [chooseIdxAux] at h
  | cons w ws ih =>
      intro cum i h
      unfold chooseIdxAux at h
      by_cases hr : r ≤ cum + w
      · simp only [hr, if_true, Option.some.injEq] at h
        simp only [List.length_cons]
        omega
      · simp only [hr, if_false] at h
        have := ih (cum + w) (i + 1) h
        simp only [List.length_cons]
        omega

lemma chooseIdx_lt_length (ws : List ℚ) (r : ℚ) (hne : ws ≠ []) :
    chooseIdx ws r < ws.length := by
  unfold chooseIdx
  cases h : chooseIdxAux ws r 0 0 with
  | none =>
      simp only [Option.getD_none]
      exact List.length_pos.mpr hne
  | some j =>
      simp only [Option.getD_some]
      have := chooseIdxAux_lt_length ws r j 0 0 h
      omega

/-- Removing the element at an in-range index: the original list is a
permutation of the removed element consed onto the remainder. -/
lemma perm_getD_cons_eraseIdx (l : List Img) (i : ℕ) (h : i < l.length) :
    l.Perm (l.getD i default :: l.eraseIdx i) := by
  induction l generalizing i with
  | nil => simp at h
  | cons a l ih =>
      cases i with
      | zero => simp [List.eraseIdx]
      | succ i =>
          simp only [List.length_cons, Nat.succ_lt_succ_iff] at h
          have hp := ih i h
          simp only [List.getD_cons_succ, List.eraseIdx_cons_succ]
          exact (List.Perm.cons a hp).trans (List.Perm.swap _ _ _)

lemma selectLoop_subperm (st : ScoreTable) (g : RandSrc) (fuel : ℕ) :
    ∀ (n : ℕ) (cands : List Img) (ws : List ℚ), ws.length = cands.length →
    (selectLoop st g fuel n cands ws).Subperm cands := by
  induction fuel with
  | zero => intro n cands ws _; simp [selectLoop]
  | succ fuel ih =>
      intro n cands ws hlen
      unfold selectLoop
      by_cases hc : cands.isEmpty
      · simp [hc]
      · simp only [hc, if_false, Bool.false_eq_true]
        have hcne : cands ≠ [] := fun h => hc (by simp [h])
        have hcpos : 0 < cands.length := List.length_pos.mpr hcne
        set idx := if ws.sum ≤ 0 then g.randint n % cands.length
          else chooseIdx ws (g.uniform n) with hidx
        have hlt : idx < cands.length := by
          rw [hidx]
          by_cases hs : ws.sum ≤ 0
          · simpa [hs] using Nat.mod_lt _ hcpos
          · simp only [hs, if_false]
            have hwne : ws ≠ [] := by
              intro h
              exact hs (by simp [h])
            have := chooseIdx_lt_length ws (g.uniform n) hwne
            omega
        have hw : idx < ws.length := by omega
        have hrec := ih (n + 1) (cands.eraseIdx idx) (ws.eraseIdx idx)
          (by rw [List.length_eraseIdx, List.length_eraseIdx, if_pos hlt, if_pos hw]
              omega)
        have hcons := (List.subperm_cons (cands.getD idx default)).mpr hrec
        exact hcons.trans (perm_getD_cons_eraseIdx cands idx hlt).symm.subperm

lemma selectLoop_length_le (st : ScoreTable) (g : RandSrc) (fuel : ℕ) :
    ∀ (n : ℕ) (cands : List Img) (ws : List ℚ),
    (selectLoop st g fuel n cands ws).length ≤ fuel := by
  induction fuel with
  | zero => intro n cands ws; simp [selectLoop]
  | succ fuel ih =>
      intro n cands ws
      unfold selectLoop
      by_cases hc : cands.isEmpty
      · simp [hc]
      · simp only [hc, if_false, Bool.false_eq_true, List.length_cons]
        exact Nat.succ_le_succ (ih _ _ _)

lemma subperm_map {α β : Type} (f : α → β) {l m : List α} (h : l.Subperm m) :
    (l.map f).Subperm (m.map f) := by
  obtain ⟨l', hperm, hsub⟩ := h
  exact ⟨l'.map f, hperm.map f, hsub.map f⟩

lemma subperm_nodup {α : Type} {l m : List α} (h : l.Subperm m) (hm : m.Nodup) :
    l.Nodup := by
  obtain ⟨l', hperm, hsub⟩ := h
  exact hperm.nodup (hm.sublist hsub)

lemma select_images_subperm (st : ScoreTable) (g : RandSrc) (available : List Img)
    (theme : String) (count : ℕ) (excludeIds : Finset ℤ) :
    (select_images st g available theme count excludeIds).Subperm
      (available.filter (fun img => !inExclude excludeIds img)) := by
  unfold select_images
  by_cases ha : available.isEmpty
  · simp [ha]
  · simp only [ha, if_false, Bool.false_eq_true]
    by_cases hc : (available.filter (fun img => !inExclude excludeIds img)).isEmpty
    · simp [hc]
    · simp only [hc, if_false, Bool.false_eq_true]
      exact selectLoop_subperm st g _ 0 _ _ (List.length_map _ _)

/-- Amended C2: `select_images` returns at most
`min count |candidates \ exclude_ids|` items, and the result is a
sub-permutation of the non-excluded candidates — no candidate entry is
selected twice.  Ids can repeat only when the caller's list itself carries
the same id on two entries; under distinct candidate ids no id repeats. -/
theorem select_images_cardinality (st : ScoreTable) (g : RandSrc)
    (available : List Img) (theme : String) (count : ℕ) (excludeIds : Finset ℤ) :
    (select_images st g available theme count excludeIds).length ≤
        min count (available.filter (fun img => !inExclude excludeIds img)).length ∧
      (select_images st g available theme count excludeIds).Subperm
        (available.filter (fun img => !inExclude excludeIds img)) ∧
      (((available.filter (fun img => !inExclude excludeIds img)).map imgKey).Nodup →
        ((select_images st g available theme count excludeIds).map imgKey).Nodup) := by
  have hsub := select_images_subperm st g available theme count excludeIds
  refine ⟨?_, hsub, fun hnd => subperm_nodup (subperm_map imgKey hsub) hnd⟩
  have hlen : (select_images st g available theme count excludeIds).length ≤
      (available.filter (fun img => !inExclude excludeIds img)).length :=
    hsub.length_le
  unfold select_images
  by_cases ha : available.isEmpty
  · simp [ha]
  · simp only [ha, if_false, Bool.false_eq_true]
    by_cases hc : (available.filter (fun img => !inExclude excludeIds img)).isEmpty
    · simp [hc]
    · simp only [hc, if_false, Bool.false_eq_true]
      have h1 := selectLoop_length_le st g
        (min count (available.filter (fun img => !inExclude excludeIds img)).length)
        0 (available.filter (fun img => !inExclude excludeIds img))
        ((available.filter (fun img => !inExclude excludeIds img)).map (imgWeight st theme))
      omega

/-- Counterexample to C2 as stated: with two candidates that carry the same
id, `select_images` returns both, so the id `1` appears twice in the
returned list — "no id appears twice" fails.  The zero-valued random stream
realises draws the real `random.uniform`/`random.randint` can produce. -/
theorem select_images_dup_id_cex :
    ((select_images (fun _ => none) zeroRand [dupImgA, dupImgB] "hands" 2 ∅).map
        imgKey) = [some 1, some 1] ∧
      ¬ ((select_images (fun _ => none) zeroRand [dupImgA, dupImgB] "hands" 2 ∅).map
          imgKey).Nodup := by
  have h : select_images (fun _ => none) zeroRand [dupImgA, dupImgB] "hands" 2 ∅ =
      [dupImgA, dupImgB] := by
    norm_num [select_images, selectLoop, chooseIdx, chooseIdxAux, imgWeight,
      imgStats, imgKey, inExclude, dupImgA, dupImgB, zeroRand, MIN_SCORE,
      FRESHNESS_BONUS, List.eraseIdx]
  rw [h]
  exact ⟨by decide, by decide⟩

/-- Witness for the amended C2 at a concrete input with distinct ids. -/
theorem select_images_cardinality_witness :
    ((select_images (fun _ => none) zeroRand
        [{ pexelsId := some (some 3) }, { pexelsId := some (some 4) }]
        "cats" 2 ∅).map imgKey).Nodup :=
  (select_images_cardinality (fun _ => none) zeroRand
      [{ pexelsId := some (some 3) }, { pexelsId := some (some 4) }]
      "cats" 2 ∅).2.2 (by decide)

/-- **C3.** Exclusion is respected: no candidate whose id (under the
`img.get('pexels_id', img.get('id'))` accessor) lies in `exclude_ids` ever
appears in a `select_images` result, for every table state, random stream,
candidates list, theme, count and exclusion set. -/
theorem select_images_exclusion (st : ScoreTable) (g : RandSrc)
    (available : List Img) (theme : String) (count : ℕ) (excludeIds : Finset ℤ)
    (img : Img) (h : img ∈ select_images st g available theme count excludeIds) :
    inExclude excludeIds img = false := by
  have hsub := select_images_subperm st g available theme count excludeIds
  have hmem := hsub.subset h
  have := (List.mem_filter.mp hmem).2
  simpa using this

/-- Witness for C3: a concrete run returns an element, and that element is
not excluded. -/
theorem select_images_exclusion_witness :
    inExclude ({2} : Finset ℤ) dupImgA = false := by
  have h : select_images (fun _ => none) zeroRand [dupImgA] "hands" 1 ({2} : Finset ℤ) =
      [dupImgA] := by
    norm_num [select_images, selectLoop, chooseIdx, chooseIdxAux, imgWeight,
      imgStats, imgKey, inExclude, dupImgA, zeroRand, MIN_SCORE,
      FRESHNESS_BONUS, List.eraseIdx]
  exact select_images_exclusion (fun _ => none) zeroRand [dupImgA] "hands" 1 {2}
    dupImgA (by rw [h]; exact List.mem_singleton_self _)

lemma getD_set_ne {α : Type} (l : List α) (i j : ℕ) (v d : α) (hij : i ≠ j) :
    (l.set i v).getD j d = l.getD j d := by
  simp [List.getD_eq_getElem?_getD, List.getElem?_set_ne hij]

lemma getD_append_lt {α : Type} (l l' : List α) (j : ℕ) (d : α)
    (hj : j < l.length) : (l ++ l').getD j d = l.getD j d := by
  simp [List.getD_eq_getElem?_getD, List.getElem?_append_left hj]

lemma selectLoopHeap_imgCells_length (st : ScoreTable) (g : RandSrc) (fuel : ℕ) :
    ∀ (n : ℕ) (h : ListHeap) (a b c : ℕ),
    (selectLoopHeap st g fuel n h a b c).imgCells.length = h.imgCells.length ∧
      (selectLoopHeap st g fuel n h a b c).ratCells.length = h.ratCells.length := by
  induction fuel with
  | zero => intro n h a b c; exact ⟨rfl, rfl⟩
  | succ fuel ih =>
      intro n h a b c
      unfold selectLoopHeap
      by_cases hc : (readImgCell h a).isEmpty
      · simp [hc]
      · simp only [hc, if_false, Bool.false_eq_true]
        constructor
        · rw [(ih (n + 1) _ a b c).1]
          simp [writeImgCell, writeRatCell]
        · rw [(ih (n + 1) _ a b c).2]
          simp [writeImgCell, writeRatCell]

lemma selectLoopHeap_frame (st : ScoreTable) (g : RandSrc) (fuel : ℕ) :
    ∀ (n : ℕ) (h : ListHeap) (remCRef remWRef selRef r : ℕ),
    (r ≠ remCRef → r ≠ selRef →
      readImgCell (selectLoopHeap st g fuel n h remCRef remWRef selRef) r =
        readImgCell h r) ∧
    (r ≠ remWRef →
      readRatCell (selectLoopHeap st g fuel n h remCRef remWRef selRef) r =
        readRatCell h r) := by
  induction fuel with
  | zero => intro n h a b c r; exact ⟨fun _ _ => rfl, fun _ => rfl⟩
  | succ fuel ih =>
      intro n h a b c r
      unfold selectLoopHeap
      by_cases hc : (readImgCell h a).isEmpty
      · simp [hc]
      · simp only [hc, if_false, Bool.false_eq_true]
        have e1 : ∀ (Y : ListHeap) (i : ℕ) v, readImgCell (writeRatCell Y i v) r =
            readImgCell Y r := fun _ _ _ => rfl
        have e2 : ∀ (Y : ListHeap) (i : ℕ) v, i ≠ r →
            readImgCell (writeImgCell Y i v) r = readImgCell Y r := by
          intro Y i v hir
          unfold readImgCell writeImgCell
          exact getD_set_ne _ _ _ _ _ hir
        have e3 : ∀ (Y : ListHeap) (i : ℕ) v, readRatCell (writeImgCell Y i v) r =
            readRatCell Y r := fun _ _ _ => rfl
        have e4 : ∀ (Y : ListHeap) (i : ℕ) v, i ≠ r →
            readRatCell (writeRatCell Y i v) r = readRatCell Y r := by
          intro Y i v hir
          unfold readRatCell writeRatCell
          exact getD_set_ne _ _ _ _ _ hir
        constructor
        · intro hra hrc
          rw [(ih _ _ a b c r).1 hra hrc, e1, e2 _ _ _ (fun hh => hra hh.symm),
            e2 _ _ _ (fun hh => hrc hh.symm)]
        · intro hrb
          rw [(ih _ _ a b c r).2 hrb, e4 _ _ _ (fun hh => hrb hh.symm), e3, e3]

lemma getD_set_self {α : Type} (l : List α) (i : ℕ) (v d : α) (h : i < l.length) :
    (l.set i v).getD i d = v := by
  simp [List.getD_eq_getElem?_getD, List.getElem?_set_eq_of_lt v h]

lemma getD_append_self {α : Type} (l : List α) (v d : α) :
    (l ++ [v]).getD l.length d = v := by
  simp [List.getD_eq_getElem?_getD, List.getElem?_append_right (le_refl l.length)]

lemma selectLoopHeap_sel_spec (st : ScoreTable) (g : RandSrc) (fuel : ℕ) :
    ∀ (n : ℕ) (h : ListHeap) (remCRef remWRef selRef : ℕ),
    remCRef ≠ selRef →
    remCRef < h.imgCells.length → selRef < h.imgCells.length →
    remWRef < h.ratCells.length →
    readImgCell (selectLoopHeap st g fuel n h remCRef remWRef selRef) selRef =
      readImgCell h selRef ++
        selectLoop st g fuel n (readImgCell h remCRef) (readRatCell h remWRef) := by
  induction fuel with
  | zero => intro n h a b c _ _ _ _; simp [selectLoopHeap, selectLoop]
  | succ fuel ih =>
      intro n h a b c hac ha hc hb
      unfold selectLoopHeap selectLoop
      by_cases hemp : (readImgCell h a).isEmpty
      · simp [hemp]
      · simp only [hemp, if_false, Bool.false_eq_true]
        set cands := readImgCell h a with hcands
        set ws := readRatCell h b with hws
        set idx := if ws.sum ≤ 0 then g.randint n % cands.length
          else chooseIdx ws (g.uniform n) with hidx
        set sel := cands.getD idx default with hsel
        set h1 := writeImgCell h c (readImgCell h c ++ [sel]) with hh1
        set h2 := writeImgCell h1 a (cands.eraseIdx idx) with hh2
        set h3 := writeRatCell h2 b (ws.eraseIdx idx) with hh3
        have l1 : h1.imgCells.length = h.imgCells.length := by
          simp [hh1, writeImgCell]
        have l2 : h2.imgCells.length = h.imgCells.length := by
          simp [hh2, hh1, writeImgCell]
        have l3 : h3.imgCells.length = h.imgCells.length := by
          simp [hh3, hh2, hh1, writeImgCell, writeRatCell]
        have l3r : h3.ratCells.length = h.ratCells.length := by
          simp [hh3, hh2, hh1, writeImgCell, writeRatCell]
        have hsel3 : readImgCell h3 c = readImgCell h c ++ [sel] := by
          have : readImgCell h3 c = readImgCell h1 c := by
            rw [hh3, hh2]
            show readImgCell (writeRatCell (writeImgCell h1 a _) b _) c = _
            have : readImgCell (writeImgCell h1 a (cands.eraseIdx idx)) c =
                readImgCell h1 c := by
              unfold readImgCell writeImgCell
              exact getD_set_ne _ _ _ _ _ hac
            exact this
          rw [this, hh1]
          unfold readImgCell writeImgCell
          exact getD_set_self _ _ _ _ hc
        have hrem3 : readImgCell h3 a = cands.eraseIdx idx := by
          have : readImgCell h3 a = readImgCell h2 a := rfl
          rw [this, hh2]
          unfold readImgCell writeImgCell
          exact getD_set_self _ _ _ _ (by rw [l1]; exact ha)
        have hws3 : readRatCell h3 b = ws.eraseIdx idx := by
          rw [hh3]
          unfold readRatCell writeRatCell
          exact getD_set_self _ _ _ _ (by
            have : h2.ratCells.length = h.ratCells.length := by
              simp [hh2, hh1, writeImgCell]
            rw [this]; exact hb)
        rw [ih (n + 1) h3 a b c hac (by rw [l3]; exact ha) (by rw [l3]; exact hc)
          (by rw [l3r]; exact hb), hsel3, hrem3, hws3]
        simp

/-- **C10.** `select_images` does not mutate its inputs: over the heap
embedding of the Python list operations, every list cell that existed
before the call (in particular the caller's `available` cell, and any other
caller-held list) holds the same value afterwards, and the returned list is
exactly the pure `select_images` of the untouched `available` value —
without-replacement removal happens only on the freshly allocated internal
copies.  (No operation of `select_images` writes to a dict, so the
candidate dicts are values here and are unmodified by construction.) -/
theorem select_images_no_mutation (st : ScoreTable) (g : RandSrc)
    (h0 : ListHeap) (availRef : ℕ) (theme : String) (count : ℕ)
    (excludeIds : Finset ℤ) :
    (∀ r, r < h0.imgCells.length →
      readImgCell (select_images_heap st g h0 availRef theme count excludeIds).1 r =
        readImgCell h0 r) ∧
    (∀ r, r < h0.ratCells.length →
      readRatCell (select_images_heap st g h0 availRef theme count excludeIds).1 r =
        readRatCell h0 r) ∧
    (select_images_heap st g h0 availRef theme count excludeIds).2 =
      select_images st g (readImgCell h0 availRef) theme count excludeIds := by
  unfold select_images_heap select_images
  by_cases hae : (readImgCell h0 availRef).isEmpty
  · simp [hae]
  · simp only [hae, if_false, Bool.false_eq_true, allocImgCell, allocRatCell]
    set available := readImgCell h0 availRef with havail
    set f := available.filter (fun img => !inExclude excludeIds img) with hf
    have hread1 : readImgCell { h0 with imgCells := h0.imgCells ++ [f] }
        h0.imgCells.length = f := getD_append_self _ _ _
    rw [hread1]
    by_cases hfe : f.isEmpty
    · simp only [hfe, if_true]
      refine ⟨?_, ?_, ?_⟩
      · intro r hr
        exact getD_append_lt _ _ _ _ hr
      · intro r _
        rfl
      · trivial
    · simp only [hfe, if_false, Bool.false_eq_true]
      set w := f.map (imgWeight st theme) with hw
      have eC : readImgCell
          { imgCells := h0.imgCells ++ [f], ratCells := h0.ratCells ++ [w] }
          h0.imgCells.length = f := getD_append_self _ _ _
      rw [eC]
      have eW : readRatCell
          { imgCells := h0.imgCells ++ [f] ++ [f], ratCells := h0.ratCells ++ [w] }
          h0.ratCells.length = w := getD_append_self _ _ _
      rw [eW]
      set H : ListHeap :=
        { imgCells := h0.imgCells ++ [f] ++ [f] ++ [[]],
          ratCells := h0.ratCells ++ [w] ++ [w] } with hH
      have himgH : H.imgCells.length = h0.imgCells.length + 3 := by simp [hH]
      have hratH : H.ratCells.length = h0.ratCells.length + 2 := by simp [hH]
      have lenCF : (h0.imgCells ++ [f]).length = h0.imgCells.length + 1 := by simp
      have lenCS : (h0.imgCells ++ [f] ++ [f]).length = h0.imgCells.length + 2 := by
        simp
      have lenW : (h0.ratCells ++ [w]).length = h0.ratCells.length + 1 := by simp
      have hreadC : readImgCell H (h0.imgCells ++ [f]).length = f := by
        show (h0.imgCells ++ [f] ++ [f] ++ [[]]).getD (h0.imgCells ++ [f]).length [] = f
        rw [getD_append_lt _ _ _ _ (by simp)]
        exact getD_append_self _ _ _
      have hreadS : readImgCell H (h0.imgCells ++ [f] ++ [f]).length = [] := by
        show (h0.imgCells ++ [f] ++ [f] ++ [[]]).getD
          (h0.imgCells ++ [f] ++ [f]).length [] = []
        exact getD_append_self _ _ _
      have hreadW : readRatCell H (h0.ratCells ++ [w]).length = w := by
        show (h0.ratCells ++ [w] ++ [w]).getD (h0.ratCells ++ [w]).length [] = w
        exact getD_append_self _ _ _
      refine ⟨?_, ?_, ?_⟩
      · intro r hr
        rw [(selectLoopHeap_frame st g (min count f.length) 0 H
          (h0.imgCells ++ [f]).length (h0.ratCells ++ [w]).length
          (h0.imgCells ++ [f] ++ [f]).length r).1
          (by rw [lenCF]; omega) (by rw [lenCS]; omega)]
        show (h0.imgCells ++ [f] ++ [f] ++ [[]]).getD r [] = h0.imgCells.getD r []
        rw [getD_append_lt _ _ _ _ (by simp; omega),
          getD_append_lt _ _ _ _ (by simp; omega),
          getD_append_lt _ _ _ _ hr]
      · intro r hr
        rw [(selectLoopHeap_frame st g (min count f.length) 0 H
          (h0.imgCells ++ [f]).length (h0.ratCells ++ [w]).length
          (h0.imgCells ++ [f] ++ [f]).length r).2 (by rw [lenW]; omega)]
        show (h0.ratCells ++ [w] ++ [w]).getD r [] = h0.ratCells.getD r []
        rw [getD_append_lt _ _ _ _ (by simp; omega),
          getD_append_lt _ _ _ _ hr]
      · rw [selectLoopHeap_sel_spec st g (min count f.length) 0 H
          (h0.imgCells ++ [f]).length (h0.ratCells ++ [w]).length
          (h0.imgCells ++ [f] ++ [f]).length
          (by rw [lenCF, lenCS]; omega)
          (by rw [lenCF, himgH]; omega)
          (by rw [lenCS, himgH]; omega)
          (by rw [lenW, hratH]; omega),
          hreadS, hreadC, hreadW]
        simp

lemma preset_entries_ok :
    ∀ p ∈ THEME_EXPANSIONS, 2 ≤ p.2.length ∧ ∀ s ∈ p.2, s ≠ "" ∧ s.length ≤ 50 := by
  decide

lemma processed_ok (qs : List String) :
    ∀ s ∈ ((qs.filter (fun q => q ≠ "")).map (fun q => strTake q 50)).take 6,
      s ≠ "" ∧ s.length ≤ 50 := by
  intro s hs
  have hs' := List.take_subset 6 _ hs
  obtain ⟨q, hq, rfl⟩ := List.mem_map.mp hs'
  have hqf := List.mem_filter.mp hq
  have hqne : q ≠ "" := by simpa using hqf.2
  constructor
  · intro hemp
    unfold strTake at hemp
    have hdata : q.toList.take 50 = [] := by
      have := congrArg String.data hemp
      simpa using this
    rcases List.take_eq_nil_iff.mp hdata with h50 | hnil
    · exact absurd h50 (by norm_num)
    · apply hqne
      cases q with
      | mk l =>
          have : l = [] := by simpa [String.toList] using hnil
          simp [this]

  · show (String.mk (q.toList.take 50)).length ≤ 50
    have : (String.mk (q.toList.take 50)).length = (q.toList.take 50).length := rfl
    rw [this, List.length_take]
    omega

lemma expand_theme_ne_nil (oracle : GenOracle) (cache : QueryCache)
    (theme : String) : (expand_theme oracle cache theme true).1 ≠ [] := by
  unfold expand_theme
  cases hex : THEME_EXPANSIONS.find? (fun p => p.1 == normTheme theme) with
  | some p =>
      have hp := preset_entries_ok p (List.mem_of_find?_eq_some hex)
      simp only [hex]
      intro hnil
      rw [hnil] at hp
      simp at hp
  | none =>
      simp only [hex]
      cases hpart : THEME_EXPANSIONS.find?
          (fun p => strContains (normTheme theme) p.1 ||
            strContains p.1 (normTheme theme)) with
      | some p =>
          have hp := preset_entries_ok p (List.mem_of_find?_eq_some hpart)
          simp only [hpart]
          intro hnil
          rw [hnil] at hp
          simp at hp
      | none =>
          simp only [hpart, if_true]
          by_cases hlen : 2 ≤ (generate_smart_queries oracle cache theme true).1.length
          · simp only [hlen, if_true]
            intro hnil
            rw [hnil] at hlen
            simp at hlen
          · simp only [hlen, if_false]
            simp

/-- Amended C6 (sole change from the claim: the truncation bound in the
code is **50** characters, not 60).  `_expand_theme` never raises (it is a
total function of the LLM-boundary oracle) and always returns at least one
query.  When no preset matches and the module cache has no entry for the
theme: on any generator failure or invalid (non-list) output the expander
falls back to `[theme]` — the normalized theme, per the normalize-first
contract of §4.1 — and a generator list is accepted exactly when it has at
least two non-empty strings, in which case the result is precisely those
non-empty entries truncated to at most 50 characters (so each returned
query is non-empty and at most 50 characters, and at least two are
returned); fewer than two non-empty strings also fall back to the
normalized theme. -/
theorem expand_theme_contract (oracle : GenOracle) (cache : QueryCache)
    (theme : String) :
    1 ≤ (expand_theme oracle cache theme true).1.length ∧
    (THEME_EXPANSIONS.find? (fun p => p.1 == normTheme theme) = none →
      THEME_EXPANSIONS.find?
        (fun p => strContains (normTheme theme) p.1 ||
          strContains p.1 (normTheme theme)) = none →
      cache.find? (fun p => p.1 == normTheme theme) = none →
      ((∀ qs : List String, oracle ≠ .ok (some qs)) →
        (expand_theme oracle cache theme true).1 = [normTheme theme]) ∧
      (∀ qs : List String, oracle = .ok (some qs) →
        (2 ≤ (qs.filter (fun q => q ≠ "")).length →
          (expand_theme oracle cache theme true).1 =
            ((qs.filter (fun q => q ≠ "")).map (fun q => strTake q 50)).take 6 ∧
          2 ≤ (expand_theme oracle cache theme true).1.length ∧
          ∀ s ∈ (expand_theme oracle cache theme true).1,
            s ≠ "" ∧ s.length ≤ 50) ∧
        ((qs.filter (fun q => q ≠ "")).length < 2 →
          (expand_theme oracle cache theme true).1 = [normTheme theme]))) := by
  constructor
  · have hne := expand_theme_ne_nil oracle cache theme
    cases h : (expand_theme oracle cache theme true).1 with
    | nil => exact absurd h hne
    | cons a l => simp
  · intro hex hpart hhit
    have hgenBad : (∀ qs : List String, oracle ≠ .ok (some qs)) →
        generate_smart_queries oracle cache theme true = ([theme], cache) := by
      intro h
      unfold generate_smart_queries
      simp only [if_true, hhit]
      cases oracle with
      | error e => rfl
      | ok v =>
          cases v with
          | none => rfl
          | some qs => exact absurd rfl (h qs)
    have hgenOk : ∀ qs : List String, oracle = .ok (some qs) →
        generate_smart_queries oracle cache theme true =
          if 2 ≤ qs.length then
            (((qs.filter (fun q => q ≠ "")).map (fun q => strTake q 50)).take 6,
              cacheInsert cache (normTheme theme)
                (((qs.filter (fun q => q ≠ "")).map
                  (fun q => strTake q 50)).take 6))
          else ([theme], cache) := by
      intro qs hq
      unfold generate_smart_queries
      rw [hq]
      simp only [if_true, hhit]
    have hexp : expand_theme oracle cache theme true =
        (if 2 ≤ (generate_smart_queries oracle cache theme true).1.length then
          generate_smart_queries oracle cache theme true
        else ([normTheme theme],
          (generate_smart_queries oracle cache theme true).2)) := by
      unfold expand_theme
      simp only [hex, hpart, if_true]
    constructor
    · intro hno
      rw [hexp, hgenBad hno]
      norm_num
    · intro qs hq
      have hg := hgenOk qs hq
      constructor
      · intro h2
        have hraw : 2 ≤ qs.length :=
          le_trans h2 (List.length_filter_le _ _)
        have hproc2 : 2 ≤
            (((qs.filter (fun q => q ≠ "")).map
              (fun q => strTake q 50)).take 6).length := by
          rw [List.length_take, List.length_map]
          omega
        rw [hexp, hg, if_pos hraw, if_pos hproc2]
        exact ⟨rfl, hproc2, processed_ok qs⟩
      · intro hlt
        by_cases hraw : 2 ≤ qs.length
        · have hproclt : ¬ (2 ≤
              (((qs.filter (fun q => q ≠ "")).map
                (fun q => strTake q 50)).take 6).length) := by
            rw [List.length_take, List.length_map]
            omega
          rw [hexp, hg, if_pos hraw, if_neg hproclt]
        · rw [hexp, hg, if_neg hraw]
          norm_num

/-- Witness for C6's amended theorem: a concrete accepted generator output
on a theme with no preset match and an empty cache. -/
theorem expand_theme_contract_witness :
    (expand_theme (.ok (some ["pocket watch", "old clock"])) [] "zzzz"
        true).1 =
      (((["pocket watch", "old clock"].filter (fun q => q ≠ "")).map
        (fun q => strTake q 50)).take 6) :=
  ((((expand_theme_contract (.ok (some ["pocket watch", "old clock"])) []
      "zzzz").2 (by decide) (by decide) rfl).2
    ["pocket watch", "old clock"] rfl).1 (by decide)).1

/-- Counterexample to C6 as stated: for a theme with no preset match and an
accepted generator output of two 55-character queries, the expander returns
50-character truncations, not the 60-character truncation the claim
describes (which would leave both 55-character queries intact). -/
theorem expand_theme_truncation_cex :
    ((expand_theme (.ok (some [s55a, s55b])) [] "zzzz" true).1.map
        String.length) = [50, 50] ∧
      (expand_theme (.ok (some [s55a, s55b])) [] "zzzz" true).1 ≠
        specTruncate60 [s55a, s55b] ∧
      (specTruncate60 [s55a, s55b]).map String.length = [55, 55] := by
  refine ⟨by decide, by decide, by decide⟩

/-- Witness for C10: on a one-cell heap holding the caller's list, the cell
is unchanged by the call. -/
theorem select_images_no_mutation_witness :
    readImgCell
      (select_images_heap (fun _ => none) zeroRand
        ⟨[[dupImgA]], []⟩ 0 "hands" 1 ∅).1 0 =
      readImgCell ⟨[[dupImgA]], []⟩ 0 :=
  (select_images_no_mutation (fun _ => none) zeroRand ⟨[[dupImgA]], []⟩ 0
    "hands" 1 ∅).1 0 (by decide)

/-- **C8.** The claim matches the spec and the code's visible intent
(`INSERT OR IGNORE`, and §3's composite key (session_id, provider_id)), but
the schema has no UNIQUE constraint over that pair, so the second identical
insert is *not* ignored: after two `add_session_image(1, 42, 0)` calls on a
valid session, two SessionImage rows exist for the pair, not one. -/
theorem add_session_image_not_idempotent :
    (((add_session_image sessDB0 1 42 0).bind
        (fun db1 => add_session_image db1 1 42 0)).map
      (fun db2 => (db2.sessionImages.filter
        (fun r => r.sessionId == 1 && r.pexelsId == 42)).length)).toOption =
      some 2 := by
  decide

/-- Counterexample to C9 as stated: completing session 1 at time 5 and
calling `complete_session` again at time 9 revises `ended_at` from 5 to
9 — finalization is not write-once. -/
theorem complete_session_revises_cex :
    ((complete_session sessDB0 1 10 "completed" 5).sessions.find?
        (fun r => r.id == 1)).map (fun r => r.endedAt) = some (some 5) ∧
    ((complete_session (complete_session sessDB0 1 10 "completed" 5) 1 10
        "completed" 9).sessions.find? (fun r => r.id == 1)).map
      (fun r => r.endedAt) = some (some 9) := by
  exact ⟨by decide, by decide⟩

/-- Amended C9: `complete_session` is an unconditional last-writer-wins
update — every call (including repeated calls on an already-finalized
session) sets the matching session's `ended_at` to the current time and
`status`/`images_completed` to the given values, and leaves every other
session unchanged.  `ended_at` is therefore revised by each repeat call,
and a caller passing `in_progress` would even un-finalize the session. -/
theorem complete_session_overwrites (db : SessDB) (sessionId : ℕ)
    (imagesCompleted : ℤ) (status : String) (now : ℕ) :
    ∀ r ∈ (complete_session db sessionId imagesCompleted status now).sessions,
      (r.id = sessionId →
        r.endedAt = some now ∧ r.status = status ∧
          r.imagesCompleted = imagesCompleted) ∧
      (r.id ≠ sessionId → r ∈ db.sessions) := by
  intro r hr
  unfold complete_session at hr
  simp only at hr
  obtain ⟨r0, hr0, hre⟩ := List.mem_map.mp hr
  by_cases h0 : r0.id == sessionId
  · simp only [h0, if_true] at hre
    constructor
    · intro _
      rw [← hre]
      exact ⟨rfl, rfl, rfl⟩
    · intro hne
      exfalso
      apply hne
      rw [← hre]
      show r0.id = sessionId
      simpa using h0
  · simp only [h0, if_false, Bool.false_eq_true] at hre
    constructor
    · intro hid
      exfalso
      rw [← hre] at hid
      exact absurd (by simp [hid] : (r0.id == sessionId) = true) (by simpa using h0)
    · intro _
      rw [← hre]
      exact hr0

/-- Witness for the amended C9 at a concrete database. -/
theorem complete_session_overwrites_witness :
    (⟨1, "hands", 60, 10, 3, 0, some 7, "completed"⟩ : SessionRow).endedAt =
        some 7 ∧
      (⟨1, "hands", 60, 10, 3, 0, some 7, "completed"⟩ : SessionRow).status =
        "completed" ∧
      (⟨1, "hands", 60, 10, 3, 0, some 7, "completed"⟩ : SessionRow).imagesCompleted
        = 3 :=
  ((complete_session_overwrites sessDB0 1 3 "completed" 7
      ⟨1, "hands", 60, 10, 3, 0, some 7, "completed"⟩ (by decide)).1) rfl

/-! ### Cache round-trip (C7) -/

lemma foldl_saveStep_themeQueries (t : String) :
    ∀ (l : List (ℕ × Img)) (s : Store),
    (l.foldl (saveStep t) s).themeQueries = s.themeQueries := by
  intro l
  induction l with
  | nil => intro s; rfl
  | cons p l ih => intro s; exact ih (saveStep t s p)

lemma find?_upsertThemeQueries (t : String) (qs : List String) (now : ℕ) :
    ∀ (tq : List ThemeQueryRow),
    (upsertThemeQueries tq t qs now).find? (fun r => r.theme == t) =
      some ⟨t, qs, now⟩ := by
  have key : ∀ (tq : List ThemeQueryRow),
      (tq.map (fun r => if r.theme == t then ⟨t, qs, now⟩ else r)).find?
          (fun r => r.theme == t) =
        if tq.any (fun r => r.theme == t) then some ⟨t, qs, now⟩ else none := by
    intro tq
    induction tq with
    | nil => rfl
    | cons r tq ih =>
        by_cases hr : r.theme == t
        · simp [List.find?, hr, List.any_cons]
        · simp only [List.map_cons, List.any_cons, hr, Bool.false_or]
          rw [List.find?_cons_of_neg _ (by simpa using hr)]
          exact ih
  intro tq
  unfold upsertThemeQueries
  by_cases hany : tq.any (fun r => r.theme == t)
  · simp only [hany, if_true]
    rw [key tq, if_pos hany]
  · simp only [hany, if_false, Bool.false_eq_true]
    rw [List.find?_append]
    have hnone : tq.find? (fun r => r.theme == t) = none := by
      rw [List.find?_eq_none]
      intro r hr hcontra
      exact hany (List.any_eq_true.mpr ⟨r, hr, hcontra⟩)
    rw [hnone]
    simp [List.find?]

lemma upsertThemeImage_no_conflict (ti : List ThemeImageRow) (t : String)
    (pid : Option ℤ) (pos : ℤ)
    (h : ∀ r ∈ ti, ¬(r.theme == t ∧ optEq r.pexelsId pid = true)) :
    upsertThemeImage ti t pid pos = ti ++ [⟨t, pid, pos⟩] := by
  unfold upsertThemeImage
  have hany : ti.any (fun r => r.theme == t && optEq r.pexelsId pid) = false := by
    rw [← Bool.not_eq_true, List.any_eq_true]
    rintro ⟨r, hr, hp⟩
    exact h r hr (by simpa using hp)
  rw [hany]
  simp

lemma foldl_themeImages_fresh (t : String) :
    ∀ (I : List Img) (k : ℕ) (s : Store),
    (∀ r ∈ s.themeImages, r.theme = t →
      ∀ img ∈ I, optEq r.pexelsId (imgPid img) = false) →
    I.Pairwise (fun a b => optEq (imgPid a) (imgPid b) = false) →
    ((I.enumFrom k).foldl (saveStep t) s).themeImages =
      s.themeImages ++
        (I.enumFrom k).map (fun p => ⟨t, imgPid p.2, (p.1 : ℤ)⟩) := by
  intro I
  induction I with
  | nil => intro k s _ _; simp [List.enumFrom]
  | cons i I ih =>
      intro k s hfresh hpw
      have hstep : (saveStep t s (k, i)).themeImages =
          s.themeImages ++ [⟨t, imgPid i, (k : ℤ)⟩] := by
        show upsertThemeImage s.themeImages t (imgPid i) (k : ℤ) = _
        apply upsertThemeImage_no_conflict
        intro r hr ⟨hth, hpe⟩
        have := hfresh r hr (by simpa using hth) i (by simp)
        rw [this] at hpe
        exact absurd hpe (by simp)
      have hrec := ih (k + 1) (saveStep t s (k, i))
        (by
          rw [hstep]
          intro r hr hth img himg
          rcases List.mem_append.mp hr with hold | hnew
          · exact hfresh r hold hth img (List.mem_cons_of_mem _ himg)
          · have : r = ⟨t, imgPid i, (k : ℤ)⟩ := by simpa using hnew
            rw [this]
            exact (List.pairwise_cons.mp hpw).1 img himg)
        (List.pairwise_cons.mp hpw).2
      show ((List.enumFrom k (i :: I)).foldl (saveStep t) s).themeImages = _
      have henum : List.enumFrom k (i :: I) = (k, i) :: List.enumFrom (k + 1) I := rfl
      rw [henum]
      simp only [List.foldl_cons, List.map_cons]
      rw [hrec, hstep]
      simp

lemma upsertCuratedImage_presence (ci : List CuratedRow) (t : String) (img : Img)
    (v : ℤ) :
    ((∃ r ∈ ci, r.pexelsId = some v) ∨ imgPid img = some v) →
    ∃ r ∈ upsertCuratedImage ci t img, r.pexelsId = some v := by
  intro h
  unfold upsertCuratedImage
  by_cases hany : ci.any (fun r => optEq r.pexelsId (imgPid img))
  · simp only [hany, if_true]
    rcases h with ⟨r0, hr0, hv0⟩ | hv
    · refine ⟨_, List.mem_map_of_mem _ hr0, ?_⟩
      by_cases hc : optEq r0.pexelsId (imgPid img)
      · simp only [hc, if_true]
        exact hv0
      · simp only [hc, if_false, Bool.false_eq_true]
        exact hv0
    · obtain ⟨r0, hr0, hc⟩ := List.any_eq_true.mp hany
      refine ⟨_, List.mem_map_of_mem _ hr0, ?_⟩
      have hc' : optEq r0.pexelsId (imgPid img) = true := by simpa using hc
      have hr0v : r0.pexelsId = some v := by
        rw [hv] at hc'
        unfold optEq at hc'
        cases hx : r0.pexelsId with
        | none => rw [hx] at hc'; simp at hc'
        | some x =>
            rw [hx] at hc'
            simp only [beq_iff_eq] at hc'
            rw [hc']
      simp only [hc', if_true]
      exact hr0v
  · simp only [hany, if_false, Bool.false_eq_true]
    rcases h with ⟨r0, hr0, hv0⟩ | hv
    · exact ⟨r0, List.mem_append_left _ hr0, hv0⟩
    · exact ⟨⟨imgPid img, img.alt, t, img.url, img.thumbnail, img.photographer,
        0, none⟩, List.mem_append_right _ (by simp), hv⟩

lemma foldl_curated_presence (t : String) :
    ∀ (l : List (ℕ × Img)) (s : Store) (v : ℤ),
    ((∃ r ∈ s.curatedImages, r.pexelsId = some v) ∨
      ∃ p ∈ l, imgPid p.2 = some v) →
    ∃ r ∈ (l.foldl (saveStep t) s).curatedImages, r.pexelsId = some v := by
  intro l
  induction l with
  | nil =>
      intro s v h
      rcases h with h | ⟨p, hp, _⟩
      · exact h
      · simp at hp
  | cons p l ih =>
      intro s v h
      show ∃ r ∈ (l.foldl (saveStep t) (saveStep t s p)).curatedImages,
        r.pexelsId = some v
      apply ih
      rcases h with h | ⟨q, hq, hv⟩
      · left
        exact upsertCuratedImage_presence s.curatedImages t p.2 v (Or.inl h)
      · rcases List.mem_cons.mp hq with rfl | hq'
        · left
          exact upsertCuratedImage_presence s.curatedImages t q.2 v (Or.inr hv)
        · right
          exact ⟨q, hq', hv⟩

lemma enumFrom_fst_ge {α : Type} :
    ∀ (l : List α) (k : ℕ) (p : ℕ × α), p ∈ l.enumFrom k → k ≤ p.1 := by
  intro l
  induction l with
  | nil => intro k p hp; simp [List.enumFrom] at hp
  | cons a l ih =>
      intro k p hp
      rcases List.mem_cons.mp hp with rfl | hp'
      · exact le_refl _
      · exact Nat.le_of_succ_le (ih (k + 1) p hp')

lemma sorted_assoc_rows (t : String) :
    ∀ (I : List Img) (k : ℕ),
    List.Sorted (fun a b : ThemeImageRow => a.position ≤ b.position)
      ((I.enumFrom k).map (fun p => ⟨t, imgPid p.2, (p.1 : ℤ)⟩)) := by
  intro I
  induction I with
  | nil => intro k; simp [List.enumFrom]
  | cons i I ih =>
      intro k
      have henum : List.enumFrom k (i :: I) = (k, i) :: List.enumFrom (k + 1) I := rfl
      rw [henum, List.map_cons, List.sorted_cons]
      refine ⟨?_, ih (k + 1)⟩
      intro b hb
      obtain ⟨p, hp, rfl⟩ := List.mem_map.mp hb
      have := enumFrom_fst_ge I (k + 1) p hp
      show (k : ℤ) ≤ (p.1 : ℤ)
      exact_mod_cast Nat.le_of_succ_le this

lemma mem_enumFrom_of_mem {α : Type} :
    ∀ (l : List α) (k : ℕ) (a : α), a ∈ l → ∃ p ∈ l.enumFrom k, p.2 = a := by
  intro l
  induction l with
  | nil => intro k a ha; simp at ha
  | cons b l ih =>
      intro k a ha
      rcases List.mem_cons.mp ha with rfl | ha'
      · exact ⟨(k, a), by simp [List.enumFrom], rfl⟩
      · obtain ⟨p, hp, hpa⟩ := ih (k + 1) a ha'
        exact ⟨p, List.mem_cons_of_mem _ hp, hpa⟩

lemma joinRow_assoc (C : List CuratedRow) (t : String) :
    ∀ (I : List Img) (k : ℕ),
    (∀ img ∈ I, ∃ v, imgPid img = some v ∧ ∃ r ∈ C, r.pexelsId = some v) →
    (((I.enumFrom k).map (fun p => ⟨t, imgPid p.2, (p.1 : ℤ)⟩)).filterMap
        (joinRow C)).map imgPid = I.map imgPid := by
  intro I
  induction I with
  | nil => intro k _; simp [List.enumFrom]
  | cons i I ih =>
      intro k hpres
      obtain ⟨v, hv, r, hr, hrv⟩ := hpres i (by simp)
      have henum : List.enumFrom k (i :: I) = (k, i) :: List.enumFrom (k + 1) I := rfl
      rw [henum, List.map_cons, List.filterMap_cons]
      have hfindSome : (C.find? (fun ci => ci.pexelsId == some v)).isSome :=
        List.find?_isSome.mpr ⟨r, hr, by simp [hrv]⟩
      cases hfind : C.find? (fun ci => ci.pexelsId == some v) with
      | none => rw [hfind] at hfindSome; simp at hfindSome
      | some ci =>
          have hci : ci.pexelsId = some v := by
            have := List.find?_some hfind
            simpa using this
          have hjoin : joinRow C (⟨t, imgPid (k, i).2, ((k, i).1 : ℤ)⟩ :
              ThemeImageRow) =
              some ⟨some ci.pexelsId, none, ci.url, ci.thumbnail, ci.alt,
                ci.photographer, 0, 1⟩ := by
            show joinRow C ⟨t, imgPid i, (k : ℤ)⟩ = _
            unfold joinRow
            simp [hv, hfind]
          rw [hjoin]
          simp only [List.map_cons]
          rw [ih (k + 1) (fun img h => hpres img (List.mem_cons_of_mem _ h))]
          have hpid : imgPid (⟨some ci.pexelsId, none, ci.url, ci.thumbnail,
              ci.alt, ci.photographer, 0, 1⟩ : Img) = imgPid i := by
            show ci.pexelsId = imgPid i
            rw [hci, hv]
          rw [hpid]

lemma get_after_save (store : Store) (theme : String) (Q : List String)
    (I : List Img) (now : ℕ)
    (hfresh : ∀ r ∈ store.themeImages, r.theme ≠ normTheme theme)
    (hsome : ∀ img ∈ I, (imgPid img).isSome)
    (hnodup : (I.map imgPid).Nodup)
    (hne : I ≠ []) :
    (get_cached_theme (save_theme_results store theme Q I now) theme).map
      (fun p => (p.1, p.2.map imgPid)) = some (Q, I.map imgPid) := by
  set t := normTheme theme with ht
  set S := save_theme_results store theme Q I now with hS
  have hq : S.themeQueries =
      upsertThemeQueries store.themeQueries t Q now := by
    rw [hS]
    unfold save_theme_results
    rw [foldl_saveStep_themeQueries]
  have hfind : S.themeQueries.find? (fun r => r.theme == t) = some ⟨t, Q, now⟩ := by
    rw [hq]; exact find?_upsertThemeQueries t Q now store.themeQueries
  have hpw : I.Pairwise (fun a b => optEq (imgPid a) (imgPid b) = false) := by
    have h1 : I.Pairwise (fun a b => imgPid a ≠ imgPid b) :=
      List.pairwise_map.mp hnodup
    refine h1.imp_of_mem ?_
    intro a b ha hb hne'
    obtain ⟨x, hx⟩ := Option.isSome_iff_exists.mp (hsome a ha)
    obtain ⟨y, hy⟩ := Option.isSome_iff_exists.mp (hsome b hb)
    rw [hx, hy]
    unfold optEq
    simp only [beq_eq_false_iff_ne, ne_eq]
    intro hxy
    exact hne' (by rw [hx, hy, hxy])
  have hti : S.themeImages = store.themeImages ++
      (I.enumFrom 0).map (fun p => ⟨t, imgPid p.2, (p.1 : ℤ)⟩) := by
    rw [hS]
    unfold save_theme_results
    exact foldl_themeImages_fresh t I 0 _
      (fun r hr hth img _ => absurd hth (hfresh r hr)) hpw
  have hfilter : S.themeImages.filter (fun r => r.theme == t) =
      (I.enumFrom 0).map (fun p => ⟨t, imgPid p.2, (p.1 : ℤ)⟩) := by
    rw [hti, List.filter_append]
    have h1 : store.themeImages.filter (fun r => r.theme == t) = [] := by
      rw [List.filter_eq_nil_iff]
      intro r hr
      simpa using hfresh r hr
    have h2 : ((I.enumFrom 0).map
        (fun p => (⟨t, imgPid p.2, (p.1 : ℤ)⟩ : ThemeImageRow))).filter
          (fun r => r.theme == t) =
        (I.enumFrom 0).map (fun p => ⟨t, imgPid p.2, (p.1 : ℤ)⟩) := by
      rw [List.filter_eq_self]
      intro r hr
      obtain ⟨p, _, rfl⟩ := List.mem_map.mp hr
      simp
    rw [h1, h2, List.nil_append]
  have hsort : sortByPosition (S.themeImages.filter (fun r => r.theme == t)) =
      (I.enumFrom 0).map (fun p => ⟨t, imgPid p.2, (p.1 : ℤ)⟩) := by
    rw [hfilter]
    exact List.Sorted.insertionSort_eq (sorted_assoc_rows t I 0)
  have hpres : ∀ img ∈ I, ∃ v, imgPid img = some v ∧
      ∃ r ∈ S.curatedImages, r.pexelsId = some v := by
    intro img himg
    obtain ⟨v, hv⟩ := Option.isSome_iff_exists.mp (hsome img himg)
    refine ⟨v, hv, ?_⟩
    obtain ⟨p, hp, hpa⟩ := mem_enumFrom_of_mem I 0 img himg
    rw [hS]
    unfold save_theme_results
    exact foldl_curated_presence t (I.enumFrom 0) _ v
      (Or.inr ⟨p, hp, by rw [hpa]; exact hv⟩)
  have hjoin : (joinThemeImages S t).map imgPid = I.map imgPid := by
    unfold joinThemeImages
    rw [hsort]
    exact joinRow_assoc S.curatedImages t I 0 hpres
  have hjne : (joinThemeImages S t).isEmpty = false := by
    cases hj : joinThemeImages S t with
    | nil =>
        rw [hj] at hjoin
        exact absurd hjoin.symm (by simpa using hne)
    | cons a l => rfl
  show (get_cached_theme S theme).map (fun p => (p.1, p.2.map imgPid)) = _
  unfold get_cached_theme
  rw [← ht, hfind]
  simp only [hjne, Bool.false_eq_true, if_false, Option.map_some', hjoin]

/-- Amended C7: the save/read round-trip holds for a theme with no prior
image-association rows: after `save_theme_results(T, Q, I)` with `I`
non-empty and carrying distinct integer provider ids,
`get_cached_theme(T)` returns queries `Q` and images whose ids equal the
ids of `I` in saved-position order.  (Stale `theme_images` rows for `T`
from an earlier save are *not* deleted and would also be returned, which is
what the counterexample exhibits.)  A theme with a ThemeQueryRecord but
zero associated images is reported as not found. -/
theorem cache_roundtrip_amended :
    (∀ (store : Store) (theme : String) (Q : List String) (I : List Img)
      (now : ℕ),
      (∀ r ∈ store.themeImages, r.theme ≠ normTheme theme) →
      (∀ img ∈ I, (imgPid img).isSome) →
      (I.map imgPid).Nodup → I ≠ [] →
      (get_cached_theme (save_theme_results store theme Q I now) theme).map
        (fun p => (p.1, p.2.map imgPid)) = some (Q, I.map imgPid)) ∧
    (∀ (store : Store) (theme : String),
      (store.themeQueries.find? (fun r => r.theme == normTheme theme)).isSome →
      (∀ r ∈ store.themeImages, r.theme ≠ normTheme theme) →
      get_cached_theme store theme = none) := by
  constructor
  · intro store theme Q I now h1 h2 h3 h4
    exact get_after_save store theme Q I now h1 h2 h3 h4
  · intro store theme hq hfresh
    unfold get_cached_theme
    obtain ⟨tq, htq⟩ := Option.isSome_iff_exists.mp hq
    rw [htq]
    have hjoin : joinThemeImages store (normTheme theme) = [] := by
      unfold joinThemeImages
      have hfil : store.themeImages.filter
          (fun r => r.theme == normTheme theme) = [] := by
        rw [List.filter_eq_nil_iff]
        intro r hr
        simpa using hfresh r hr
      rw [hfil]
      rfl
    simp [hjoin]

/-- Counterexample to C7 as stated: over a store already holding an
association of image 99 with "hands" (at position 1),
`save_theme_results("hands", ["q"], [image 5])` followed by
`get_cached_theme("hands")` returns ids `[5, 99]`, not the ids of the saved
list `[5]` — the save never deletes stale theme associations. -/
theorem cache_roundtrip_cex :
    (get_cached_theme (save_theme_results staleStore "hands" ["q"] [imgFive] 0)
        "hands").map (fun p => (p.1, p.2.map imgPid)) =
      some (["q"], [some 5, some 99]) ∧
    [imgFive].map imgPid = [some 5] ∧
    (get_cached_theme (save_theme_results staleStore "hands" ["q"] [imgFive] 0)
        "hands").map (fun p => (p.1, p.2.map imgPid)) ≠
      some (["q"], [imgFive].map imgPid) := by
  exact ⟨by decide, by decide, by decide⟩

/-- Witness for the amended C7: both parts applied at concrete stores. -/
theorem cache_roundtrip_witness :
    (get_cached_theme (save_theme_results staleStore "cats" ["q"] [imgFive] 3)
        "cats").map (fun p => (p.1, p.2.map imgPid)) =
      some (["q"], [imgFive].map imgPid) ∧
    get_cached_theme
      (⟨[⟨"cats", ["q"], 0⟩], [], []⟩ : Store) "cats" = none :=
  ⟨cache_roundtrip_amended.1 staleStore "cats" ["q"] [imgFive] 3 (by decide)
      (by decide) (by decide) (by decide),
    cache_roundtrip_amended.2 ⟨[⟨"cats", ["q"], 0⟩], [], []⟩ "cats" (by decide)
      (by decide)⟩

/-! ### Curation orchestrator (C4, C5) -/

lemma photosLoop_mem (env : CurateEnv) (theme : String) (ru : Finset ℤ)
    (avail : List Img) (qIdx : ℕ) :
    ∀ (ps : List Photo) (pIdx : ℕ) (acc : List Img) (img : Img),
    img ∈ photosLoop env theme ru avail qIdx pIdx ps acc →
    img ∈ acc ∨ ∃ p ∈ ps, img = mkNewImg p := by
  intro ps
  induction ps with
  | nil => intro pIdx acc img h; exact Or.inl h
  | cons p ps ih =>
      intro pIdx acc img h
      unfold photosLoop at h
      have push : img ∈ acc ∨ (∃ q ∈ ps, img = mkNewImg q) →
          img ∈ acc ∨ ∃ q ∈ p :: ps, img = mkNewImg q := by
        rintro (h | ⟨q, hq, rfl⟩)
        · exact Or.inl h
        · exact Or.inr ⟨q, List.mem_cons_of_mem _ hq, rfl⟩
      cases hg : env.isGood qIdx pIdx p.alt theme with
      | error e => rw [hg] at h; exact Or.inl h
      | ok b =>
          rw [hg] at h
          cases b with
          | false => exact push (ih (pIdx + 1) acc img h)
          | true =>
              simp only at h
              by_cases h1 : p.id ∈ ru
              · simp only [h1, if_true] at h
                exact push (ih (pIdx + 1) acc img h)
              · simp only [h1, if_false] at h
                by_cases h2 : avail.any (fun img => hasPid img p.id)
                · simp only [h2, if_true] at h
                  exact push (ih (pIdx + 1) acc img h)
                · simp only [h2, if_false, Bool.false_eq_true] at h
                  by_cases h3 : acc.any (fun img => hasPid img p.id)
                  · simp only [h3, if_true] at h
                    exact push (ih (pIdx + 1) acc img h)
                  · simp only [h3, if_false, Bool.false_eq_true] at h
                    rcases ih (pIdx + 1) (acc ++ [mkNewImg p]) img h with hin | hex
                    · rcases List.mem_append.mp hin with hin' | hnew
                      · exact Or.inl hin'
                      · refine Or.inr ⟨p, by simp, ?_⟩
                        simpa using hnew
                    · exact push (Or.inr hex)

lemma queriesLoop_mem (env : CurateEnv) (theme : String) (ru : Finset ℤ)
    (avail : List Img) :
    ∀ (qs : List String) (qIdx : ℕ) (fpq : ℤ) (acc : List Img) (img : Img),
    img ∈ queriesLoop env theme ru avail qIdx qs fpq acc →
    img ∈ acc ∨ ∃ i q ps p, env.search i q fpq = .ok ps ∧ p ∈ ps ∧
      img = mkNewImg p := by
  intro qs
  induction qs with
  | nil => intro qIdx fpq acc img h; exact Or.inl h
  | cons q qs ih =>
      intro qIdx fpq acc img h
      unfold queriesLoop at h
      cases hs : env.search qIdx q fpq with
      | error e => rw [hs] at h; exact ih (qIdx + 1) fpq acc img h
      | ok photos =>
          rw [hs] at h
          rcases ih (qIdx + 1) fpq _ img h with hin | hex
          · rcases photosLoop_mem env theme ru avail qIdx photos 0 acc img hin with
              hacc | ⟨p, hp, rfl⟩
            · exact Or.inl hacc
            · exact Or.inr ⟨qIdx, q, photos, p, hs, hp, rfl⟩
          · exact Or.inr hex

lemma queriesLoop_all_error (env : CurateEnv) (theme : String) (ru : Finset ℤ)
    (avail : List Img)
    (hs : ∀ i (q : String) (c : ℤ), env.search i q c = .error ()) :
    ∀ (qs : List String) (qIdx : ℕ) (fpq : ℤ) (acc : List Img),
    queriesLoop env theme ru avail qIdx qs fpq acc = acc := by
  intro qs
  induction qs with
  | nil => intro qIdx fpq acc; rfl
  | cons q qs ih =>
      intro qIdx fpq acc
      unfold queriesLoop
      rw [hs qIdx q fpq]
      exact ih (qIdx + 1) fpq acc

lemma curateFetch_ok_nonfresh (env : CurateEnv) (store : Store) (theme : String)
    (n : ℕ) (ru : Finset ℤ) (avail : List Img) (needed : ℤ) :
    ∃ imgs, (curateFetch env store theme n false ru avail needed).result =
      .ok imgs := by
  unfold curateFetch
  simp only [if_false, Bool.false_eq_true]
  have hne := expand_theme_ne_nil env.genOracle env.genCache theme
  have hlen : ((expand_theme env.genOracle env.genCache theme true).1.length = 0) =
      False := by
    simp [hne]
  simp only [hlen, if_false]
  exact ⟨_, rfl⟩

/-- **C4.** Graceful degradation: (i) if every provider search raises and
the cache has no images for the theme (or the cache read itself raises),
`curate(theme, n, False)` returns `[]` without raising and leaves the
persistent store untouched; (ii) more generally a non-force-fresh curate
call never raises at all — every cache-store, provider-client,
query-generator and scorer call site is wrapped, so no dependency
exception reaches the caller.  (The lone uncaught error, modelled by
`CurateErr.zeroDiv`, is curate's own division when the force-fresh
generator returns an empty list — an error originating in curate, not one
propagated from a dependency.) -/
theorem curate_graceful_degradation :
    (∀ (env : CurateEnv) (store : Store) (theme : String) (n : ℕ),
      (∀ i (q : String) (c : ℤ), env.search i q c = .error ()) →
      (env.cacheRaises = true ∨
        get_cached_images_for_theme store env.st theme = []) →
      (curate_reference_photos env store theme n false).result = .ok [] ∧
      (curate_reference_photos env store theme n false).store = store) ∧
    (∀ (env : CurateEnv) (store : Store) (theme : String) (n : ℕ),
      ∃ imgs, (curate_reference_photos env store theme n false).result =
        .ok imgs) := by
  constructor
  · intro env store theme n hs hc
    have hnone : (curate_reference_photos env store theme n false) =
        curateFetch env store theme n false (recentSet env.recent) [] (n : ℤ) := by
      unfold curate_reference_photos
      rcases hc with hc | hc
      · simp [hc]
      · simp [hc]
    rw [hnone]
    unfold curateFetch
    have hne := expand_theme_ne_nil env.genOracle env.genCache theme
    have hlen : ((expand_theme env.genOracle env.genCache theme true).1.length = 0) =
        False := by simp [hne]
    simp only [if_false, Bool.false_eq_true, hlen]
    rw [queriesLoop_all_error env theme _ [] hs]
    simp [select_images]
  · intro env store theme n
    unfold curate_reference_photos
    simp only [if_false, Bool.false_eq_true]
    by_cases hcr : env.cacheRaises
    · simp only [hcr, if_true]
      exact curateFetch_ok_nonfresh env store theme n _ [] (n : ℤ)
    · simp only [hcr, if_false]
      by_cases hemp : (get_cached_images_for_theme store env.st theme).isEmpty
      · simp only [hemp, if_true]
        exact curateFetch_ok_nonfresh env store theme n _ [] (n : ℤ)
      · simp only [hemp, Bool.false_eq_true, if_false]
        by_cases htc : n ≤ ((get_cached_images_for_theme store env.st
            theme).filter
              (fun img => !inRecent (recentSet env.recent) img)).length
        · simp only [htc, if_true]
          by_cases hsr : env.scorerRaises 0
          · simp only [hsr, if_true]
            exact ⟨_, rfl⟩
          · simp only [hsr, Bool.false_eq_true, if_false]
            by_cases hsel : (select_images env.st (env.rand 0)
                ((get_cached_images_for_theme store env.st theme).filter
                  (fun img => !inRecent (recentSet env.recent) img))
                theme n (recentSet env.recent)).isEmpty
            · simp only [hsel, if_true]
              exact curateFetch_ok_nonfresh env store theme n _ _ _
            · simp only [hsel, Bool.false_eq_true, if_false]
              exact ⟨_, rfl⟩
        · simp only [htc, if_false]
          exact curateFetch_ok_nonfresh env store theme n _ _ _

lemma curateFetch_fresh (env : CurateEnv) (store : Store) (theme : String)
    (n : ℕ) (ru : Finset ℤ) (needed : ℤ) :
    (curateFetch env store theme n true ru [] needed).store = store ∧
    (∀ imgs, (curateFetch env store theme n true ru [] needed).result =
        .ok imgs →
      ∀ img ∈ imgs, ∃ i q c ps p, env.search i q c = .ok ps ∧ p ∈ ps ∧
        img = mkNewImg p) := by
  unfold curateFetch
  simp only [if_true]
  by_cases hq : (generate_smart_queries env.genOracleFresh env.genCache theme
      false).1.length = 0
  · simp only [hq, if_true]
    refine ⟨by trivial, ?_⟩
    intro imgs h
    simp at h
  · simp only [hq, if_false]
    refine ⟨by simp, ?_⟩
    intro imgs h img hmem
    have himgs : imgs =
        (if env.scorerRaises 1 then
          (([] : List Img) ++ queriesLoop env theme ru [] 0
            (generate_smart_queries env.genOracleFresh env.genCache theme
              false).1
            (max 10 ((needed * 2).fdiv
              ((generate_smart_queries env.genOracleFresh env.genCache theme
                false).1.length : ℤ) + 3)) []).take n
        else select_images env.st (env.rand 1)
          (([] : List Img) ++ queriesLoop env theme ru [] 0
            (generate_smart_queries env.genOracleFresh env.genCache theme
              false).1
            (max 10 ((needed * 2).fdiv
              ((generate_smart_queries env.genOracleFresh env.genCache theme
                false).1.length : ℤ) + 3)) [])
          theme n ru) := by
      have := h.symm
      simpa using this
    set newImages := queriesLoop env theme ru [] 0
      (generate_smart_queries env.genOracleFresh env.genCache theme false).1
      (max 10 ((needed * 2).fdiv
        ((generate_smart_queries env.genOracleFresh env.genCache theme
          false).1.length : ℤ) + 3)) [] with hnew
    have hmem2 : img ∈ newImages := by
      rw [himgs] at hmem
      by_cases hsr : env.scorerRaises 1
      · simp only [hsr, if_true, List.nil_append] at hmem
        exact List.take_subset _ _ hmem
      · simp only [hsr, Bool.false_eq_true, if_false, List.nil_append] at hmem
        have hsub := select_images_subperm env.st (env.rand 1) newImages theme n ru
        have := hsub.subset hmem
        exact List.mem_of_mem_filter this
    rcases queriesLoop_mem env theme ru []
        (generate_smart_queries env.genOracleFresh env.genCache theme false).1
        0 _ [] img hmem2 with hacc | hex
    · simp at hacc
    · obtain ⟨i, q, ps, p, h1, h2, h3⟩ := hex
      exact ⟨i, q, _, ps, p, h1, h2, h3⟩

/-- **C5.** Force-fresh isolation: `curate(theme, n, force_fresh=True)`
reads no cached image into the candidate pool — every returned item is the
dict built from a photo returned by a provider search during this call —
and the persistent cache (theme_queries, curated_images, theme_images) is
not written: the output store equals the input store, on the error path
included. -/
theorem curate_force_fresh_isolated (env : CurateEnv) (store : Store)
    (theme : String) (n : ℕ) :
    (curate_reference_photos env store theme n true).store = store ∧
    (∀ imgs, (curate_reference_photos env store theme n true).result =
        .ok imgs →
      ∀ img ∈ imgs, ∃ i q c ps p, env.search i q c = .ok ps ∧ p ∈ ps ∧
        img = mkNewImg p) := by
  have hred : curate_reference_photos env store theme n true =
      curateFetch env store theme n true (recentSet env.recent) [] (n : ℤ) := rfl
  rw [hred]
  exact curateFetch_fresh env store theme n _ (n : ℤ)

/-- Environment where every provider search raises. -/
def envFail : CurateEnv :=
  { recent := .ok ∅, cacheRaises := false, genOracle := .error (),
    genCache := [], genOracleFresh := .error (),
    search := fun _ _ _ => .error (), isGood := fun _ _ _ _ => .ok true,
    scorerRaises := fun _ => false, rand := fun _ => zeroRand,
    st := fun _ => none, saveRaises := false, now := 0 }

/-- Witness for C4: with an empty store and every search failing,
`curate("anything", 10, False)` returns `[]`. -/
theorem curate_graceful_degradation_witness :
    (curate_reference_photos envFail ⟨[], [], []⟩ "anything" 10 false).result =
      .ok [] ∧
    (∃ imgs, (curate_reference_photos envFail ⟨[], [], []⟩ "anything" 10
      false).result = .ok imgs) :=
  ⟨(curate_graceful_degradation.1 envFail ⟨[], [], []⟩ "anything" 10
      (fun _ _ _ => rfl) (Or.inr (by decide))).1,
    curate_graceful_degradation.2 envFail ⟨[], [], []⟩ "anything" 10⟩

/-- A concrete fetched photo and a force-fresh environment whose provider
returns it. -/
def photoA : Photo := ⟨7, "a hand", "L", "M", "ph"⟩

def envFresh : CurateEnv :=
  { recent := .ok ∅, cacheRaises := false, genOracle := .error (),
    genCache := [], genOracleFresh := .ok (some ["aa", "bb"]),
    search := fun _ _ _ => .ok [photoA], isGood := fun _ _ _ _ => .ok true,
    scorerRaises := fun _ => true, rand := fun _ => zeroRand,
    st := fun _ => none, saveRaises := false, now := 0 }

/-- Witness for C5 at a concrete force-fresh run returning one image. -/
theorem curate_force_fresh_isolated_witness :
    (curate_reference_photos envFresh ⟨[], [], []⟩ "zzzz" 1 true).store =
      (⟨[], [], []⟩ : Store) ∧
    (∃ i q c ps p, envFresh.search i q c = .ok ps ∧ p ∈ ps ∧
      mkNewImg photoA = mkNewImg p) :=
  ⟨(curate_force_fresh_isolated envFresh ⟨[], [], []⟩ "zzzz" 1).1,
    (curate_force_fresh_isolated envFresh ⟨[], [], []⟩ "zzzz" 1).2
      [mkNewImg photoA] rfl (mkNewImg photoA) (by simp)⟩

end TimedReference
